import Mathlib

/-!
# Signaling coordinator of the video-conference backend

A shallow embedding of `src/mediasoup/roomManager.js` (room registry, rooms and
peers), of the socket handlers of `src/server.js`, and of the client state
kept by `video-conference-frontend/src/App.jsx` (the participant list) and
`video-conference-frontend/src/webrtc.js` (the stream of each remote peer).

* JavaScript `Map`s are association lists with `Map.get` / `Map.set` semantics
  (`mapGet`, `mapSet`): `set` on a present key replaces the value in place, on
  an absent key it appends.
* Identifiers (socket ids, room ids, producer ids, ...) and the opaque
  negotiation payloads are natural numbers; the producer kind stays a string
  because the code compares it with the literals "video" and "audio".
* The mediasoup worker is external.  It is an `Engine`: a record of response
  functions that see the log of all requests made so far, so every sequence of
  engine answers (successes, rejections, repeated ids) is expressible.
* A handler run is an `Outcome`: the state afterwards, the messages handed to
  socket.io in order, and the exception that escaped the handler, if any.
* Room objects are shared by reference between the registry and the handler;
  the embedding writes a mutated room back under its registry key.
* The `disconnect` handler only logs and removes nothing from a room, so it is
  no `Request`; sockets are taken to stay connected, and the socket.io room
  that every socket has under its own id is left out.
-/

namespace VideoConference

/-! ## JavaScript `Map` -/

/-- The lookup `Map.prototype.get`: the value stored under `k`, if any. -/
def mapGet {α : Type} : List (Nat × α) → Nat → Option α
  | [], _ => none
  | (k', v) :: rest, k => if k' = k then some v else mapGet rest k

/-- The update `Map.prototype.set`: replaces the value of a present key in
place, appends a new entry for an absent key. -/
def mapSet {α : Type} : List (Nat × α) → Nat → α → List (Nat × α)
  | [], k, v => [(k, v)]
  | (k', v') :: rest, k, v =>
    if k' = k then (k, v) :: rest else (k', v') :: mapSet rest k v

/-- The iteration `Map.prototype.values`, in insertion order. -/
def mapValues {α : Type} (m : List (Nat × α)) : List α := m.map Prod.snd

/-! ## Media engine (external collaborator) -/

/-- Router handle of the media engine. -/
structure Router where
  id : Nat
  rtpCapabilities : Nat
deriving DecidableEq, Repr

/-- WebRTC transport handle of the media engine. -/
structure Transport where
  id : Nat
  iceParameters : Nat
  iceCandidates : Nat
  dtlsParameters : Nat
deriving DecidableEq, Repr

/-- Consumer handle of the media engine. -/
structure Consumer where
  id : Nat
  producerId : Nat
  kind : String
  rtpParameters : Nat
deriving DecidableEq, Repr

/-- The awaited requests the coordinator makes to the media engine. -/
inductive EngineCall where
  | createRouter
  | createWebRtcTransport (routerId : Nat)
  | connect (transportId : Nat) (dtlsParameters : Nat)
  | produce (transportId : Nat) (kind : String) (rtpParameters : Nat)
  | consume (transportId : Nat) (producerId : Nat) (rtpCapabilities : Nat)
  | resume (consumerId : Nat)
deriving DecidableEq, Repr

/-- The media engine: each response may depend on every request made before.
`canConsume` is the synchronous capability query of the router. -/
structure Engine where
  createRouter : List EngineCall → Except String Router
  createWebRtcTransport : List EngineCall → Router → Except String Transport
  connect : List EngineCall → Transport → Nat → Except String Unit
  produce : List EngineCall → Transport → String → Nat → Except String Nat
  canConsume : List EngineCall → Router → Nat → Nat → Bool
  consume : List EngineCall → Transport → Nat → Nat → Except String Consumer
  resume : List EngineCall → Consumer → Except String Unit

/-! ## Data model (`roomManager.js`) -/

/-- An entry `{ id, kind }` of a peer's `producers` array. -/
structure ProducerEntry where
  id : Nat
  kind : String
deriving DecidableEq, Repr

/-- The `peer` object built by `addPeer`. -/
structure Peer where
  id : Nat
  name : String
  isHost : Bool
  sendTransport : Option Transport
  recvTransport : Option Transport
  producers : List ProducerEntry
  consumers : List Consumer
deriving DecidableEq, Repr

/-- The `room` object built by `createRoom`. -/
structure Room where
  id : Nat
  router : Router
  peers : List (Nat × Peer)
deriving DecidableEq, Repr

/-- One element of the array returned by `getPeerList`. -/
structure PeerInfo where
  id : Nat
  name : String
  isHost : Bool
  videoProducers : List Nat
  audioProducers : List Nat
deriving DecidableEq, Repr

/-- The method `room.addPeer(id, name)`: a fresh peer object is stored under
`id` (whatever was stored there before) and returned. -/
def Room.addPeer (room : Room) (id : Nat) (name : String) : Room × Peer :=
  let peer : Peer :=
    { id := id, name := name, isHost := false, sendTransport := none,
      recvTransport := none, producers := [], consumers := [] }
  ({ room with peers := mapSet room.peers id peer }, peer)

/-- The method `room.getPeerList()`. -/
def Room.getPeerList (room : Room) : List PeerInfo :=
  (mapValues room.peers).map fun p =>
    { id := p.id, name := p.name, isHost := p.isHost,
      videoProducers := (p.producers.filter fun prod => prod.kind == "video").map (·.id),
      audioProducers := (p.producers.filter fun prod => prod.kind == "audio").map (·.id) }

/-- The message of the `TypeError` raised by reading `property` of a receiver
that is `undefined` (a peer id absent from `peers`) or `null` (an empty
transport slot). -/
def typeError (receiver property : String) : String :=
  "TypeError: Cannot read properties of " ++ receiver ++ " (reading " ++ property ++ ")"

/-- Result of a room method: the room afterwards, the engine log afterwards and
either the returned value or the exception thrown. -/
structure MethodResult (β : Type) where
  room : Room
  log : List EngineCall
  value : Except String β

/-- The method `room.createSendTransport(peerId)`. -/
def Room.createSendTransport (eng : Engine) (log : List EngineCall) (room : Room)
    (peerId : Nat) : MethodResult Transport :=
  let log' := log ++ [EngineCall.createWebRtcTransport room.router.id]
  match eng.createWebRtcTransport log room.router with
  | .error e => { room := room, log := log', value := .error e }
  | .ok transport =>
    match mapGet room.peers peerId with
    | none =>
      { room := room, log := log', value := .error (typeError "undefined" "sendTransport") }
    | some peer =>
      { room := { room with
          peers := mapSet room.peers peerId { peer with sendTransport := some transport } },
        log := log', value := .ok transport }

/-- The method `room.connectSendTransport(peerId, dtlsParameters)`. -/
def Room.connectSendTransport (eng : Engine) (log : List EngineCall) (room : Room)
    (peerId : Nat) (dtlsParameters : Nat) : MethodResult Unit :=
  match mapGet room.peers peerId with
  | none =>
    { room := room, log := log, value := .error (typeError "undefined" "sendTransport") }
  | some peer =>
    match peer.sendTransport with
    | none => { room := room, log := log, value := .error (typeError "null" "connect") }
    | some transport =>
      { room := room, log := log ++ [EngineCall.connect transport.id dtlsParameters],
        value := eng.connect log transport dtlsParameters }

/-- The method `room.produce(peerId, kind, rtpParameters)`. -/
def Room.produce (eng : Engine) (log : List EngineCall) (room : Room)
    (peerId : Nat) (kind : String) (rtpParameters : Nat) : MethodResult Nat :=
  match mapGet room.peers peerId with
  | none =>
    { room := room, log := log, value := .error (typeError "undefined" "sendTransport") }
  | some peer =>
    match peer.sendTransport with
    | none => { room := room, log := log, value := .error (typeError "null" "produce") }
    | some transport =>
      let log' := log ++ [EngineCall.produce transport.id kind rtpParameters]
      match eng.produce log transport kind rtpParameters with
      | .error e => { room := room, log := log', value := .error e }
      | .ok producerId =>
        { room := { room with
            peers := mapSet room.peers peerId
              { peer with producers := peer.producers ++ [{ id := producerId, kind := kind }] } },
          log := log', value := .ok producerId }

/-- The method `room.createRecvTransport(peerId)`. -/
def Room.createRecvTransport (eng : Engine) (log : List EngineCall) (room : Room)
    (peerId : Nat) : MethodResult Transport :=
  let log' := log ++ [EngineCall.createWebRtcTransport room.router.id]
  match eng.createWebRtcTransport log room.router with
  | .error e => { room := room, log := log', value := .error e }
  | .ok transport =>
    match mapGet room.peers peerId with
    | none =>
      { room := room, log := log', value := .error (typeError "undefined" "recvTransport") }
    | some peer =>
      { room := { room with
          peers := mapSet room.peers peerId { peer with recvTransport := some transport } },
        log := log', value := .ok transport }

/-- The method `room.connectRecvTransport(peerId, dtlsParameters)`. -/
def Room.connectRecvTransport (eng : Engine) (log : List EngineCall) (room : Room)
    (peerId : Nat) (dtlsParameters : Nat) : MethodResult Unit :=
  match mapGet room.peers peerId with
  | none =>
    { room := room, log := log, value := .error (typeError "undefined" "recvTransport") }
  | some peer =>
    match peer.recvTransport with
    | none => { room := room, log := log, value := .error (typeError "null" "connect") }
    | some transport =>
      { room := room, log := log ++ [EngineCall.connect transport.id dtlsParameters],
        value := eng.connect log transport dtlsParameters }

/-- The method `room.consume(peerId, producerId, rtpCapabilities)`; the engine
is asked for a paused consumer. -/
def Room.consume (eng : Engine) (log : List EngineCall) (room : Room)
    (peerId : Nat) (producerId : Nat) (rtpCapabilities : Nat) : MethodResult Consumer :=
  match mapGet room.peers peerId with
  | none =>
    { room := room, log := log, value := .error (typeError "undefined" "recvTransport") }
  | some peer =>
    match peer.recvTransport with
    | none => { room := room, log := log, value := .error (typeError "null" "consume") }
    | some transport =>
      let log' := log ++ [EngineCall.consume transport.id producerId rtpCapabilities]
      match eng.consume log transport producerId rtpCapabilities with
      | .error e => { room := room, log := log', value := .error e }
      | .ok consumer =>
        { room := { room with
            peers := mapSet room.peers peerId
              { peer with consumers := peer.consumers ++ [consumer] } },
          log := log', value := .ok consumer }

/-- The method `room.resumeConsumer(peerId, consumerId)`. -/
def Room.resumeConsumer (eng : Engine) (log : List EngineCall) (room : Room)
    (peerId : Nat) (consumerId : Nat) : MethodResult Unit :=
  match mapGet room.peers peerId with
  | none =>
    { room := room, log := log, value := .error (typeError "undefined" "consumers") }
  | some peer =>
    match peer.consumers.find? fun c => c.id == consumerId with
    | none => { room := room, log := log, value := .ok () }
    | some consumer =>
      { room := room, log := log ++ [EngineCall.resume consumer.id],
        value := eng.resume log consumer }

/-! ## Signaling coordinator (`server.js`) -/

/-- The argument a handler passes to the `callback` of a request. -/
inductive Reply where
  | joined (rtpCapabilities : Nat) (peers : List PeerInfo) (isHost : Bool)
  | error (message : String)
  | transportParams (id iceParameters iceCandidates dtlsParameters : Nat)
  | produced (id : Nat)
  | consumed (id producerId : Nat) (kind : String) (rtpParameters : Nat)
deriving DecidableEq, Repr

/-- The server-to-client events. -/
inductive Notification where
  | newPeer (id : Nat) (name : String) (isHost : Bool)
  | newProducer (producerId peerId : Nat) (kind : String)
deriving DecidableEq, Repr

/-- A message handed to socket.io: the acknowledgement of a request, sent to
the requesting socket, or an event emitted to one socket. -/
inductive Message where
  | reply (dest : Nat) (payload : Reply)
  | emit (dest : Nat) (event : Notification)
deriving DecidableEq, Repr

/-- The process state: the `rooms` registry of `roomManager.js`, the socket.io
room membership (room name to joined sockets, in joining order) and the log of
the requests made to the media engine. -/
structure ServerState where
  rooms : List (Nat × Room)
  members : List (Nat × List Nat)
  log : List EngineCall
deriving DecidableEq, Repr

/-- The state at process start. -/
def ServerState.init : ServerState := { rooms := [], members := [], log := [] }

/-- What running a handler does: the state afterwards, the messages sent in
order, and the exception that escaped the handler (an unhandled rejection). -/
structure Outcome where
  state : ServerState
  sent : List Message
  thrown : Option String
deriving DecidableEq, Repr

/-- The function `getRoom(roomId)`. -/
def getRoom (s : ServerState) (roomId : Nat) : Option Room := mapGet s.rooms roomId

/-- The sockets currently in the socket.io room `roomId`. -/
def socketsIn (s : ServerState) (roomId : Nat) : List Nat :=
  (mapGet s.members roomId).getD []

/-- The call `socket.join(roomId)`; joining twice has no further effect. -/
def socketJoin (s : ServerState) (socketId roomId : Nat) : ServerState :=
  if socketId ∈ socketsIn s roomId then s
  else { s with members := mapSet s.members roomId (socketsIn s roomId ++ [socketId]) }

/-- The call `socket.to(roomId).emit(event)`: one delivery to every socket of
the room except the sender. -/
def broadcast (s : ServerState) (socketId roomId : Nat) (event : Notification) :
    List Message :=
  ((socketsIn s roomId).filter fun m => m != socketId).map fun m => Message.emit m event

/-- The loop of `joinRoom` that emits to the joining socket one `newProducer`
per producer of every other peer of the room. -/
def existingProducers (room : Room) (socketId : Nat) : List Message :=
  (mapValues room.peers).flatMap fun p =>
    if p.id = socketId then []
    else p.producers.map fun prod =>
      Message.emit socketId (Notification.newProducer prod.id p.id prod.kind)

/-- The part of the `joinRoom` handler after `room` is bound: `addPeer`, the
`isHost` assignment, `socket.join`, the reply, the `newPeer` broadcast and the
`newProducer` loop. -/
def joinRoomFinish (s : ServerState) (socketId roomId : Nat) (name : String)
    (room : Room) (isHost : Bool) : Outcome :=
  let added := room.addPeer socketId name
  let peer : Peer := { added.2 with isHost := isHost }
  let room' : Room := { added.1 with peers := mapSet added.1.peers socketId peer }
  let s' := socketJoin { s with rooms := mapSet s.rooms roomId room' } socketId roomId
  { state := s',
    sent :=
      [Message.reply socketId
        (Reply.joined room'.router.rtpCapabilities room'.getPeerList isHost)]
      ++ broadcast s' socketId roomId (Notification.newPeer peer.id peer.name isHost)
      ++ existingProducers room' socketId,
    thrown := none }

/-- A `joinRoom` handler suspended at `await createRoom(roomId, worker)`: it
found no room (so its `isHost` is true) and holds the settled value of the
`createRouter` request it made. -/
structure PendingJoin where
  socketId : Nat
  roomId : Nat
  name : String
  router : Except String Router

/-- The `joinRoom` handler up to its suspension point: the registry lookup,
`isHost = !room` and, for an unknown room, the `createRouter` request.  A known
room is handled without suspension. -/
def joinRoomBegin (eng : Engine) (s : ServerState) (socketId roomId : Nat)
    (name : String) : Outcome ⊕ (ServerState × PendingJoin) :=
  match getRoom s roomId with
  | some room => .inl (joinRoomFinish s socketId roomId name room false)
  | none =>
    .inr ({ s with log := s.log ++ [EngineCall.createRouter] },
      { socketId := socketId, roomId := roomId, name := name,
        router := eng.createRouter s.log })

/-- The rest of a suspended `joinRoom`: `createRoom` builds the room around the
router and registers it with `rooms.set`, then the handler goes on with
`isHost = true`. -/
def joinRoomResume (s : ServerState) (p : PendingJoin) : Outcome :=
  match p.router with
  | .error e => { state := s, sent := [], thrown := some e }
  | .ok router =>
    let room : Room := { id := p.roomId, router := router, peers := [] }
    joinRoomFinish { s with rooms := mapSet s.rooms p.roomId room }
      p.socketId p.roomId p.name room true

/-- The `joinRoom` handler run without another handler in between. -/
def joinRoom (eng : Engine) (s : ServerState) (socketId roomId : Nat)
    (name : String) : Outcome :=
  match joinRoomBegin eng s socketId roomId name with
  | .inl done => done
  | .inr (s', pending) => joinRoomResume s' pending

/-- The registry after a room method ran on the room stored under `roomId`. -/
def writeBack {β : Type} (s : ServerState) (roomId : Nat) (r : MethodResult β) :
    ServerState :=
  { s with rooms := mapSet s.rooms roomId r.room, log := r.log }

/-- The reply `{ error: "Room not found" }`. -/
def roomNotFound (s : ServerState) (socketId : Nat) : Outcome :=
  { state := s, sent := [Message.reply socketId (Reply.error "Room not found")],
    thrown := none }

/-- The `createSendTransport` handler. -/
def createSendTransport (eng : Engine) (s : ServerState) (socketId roomId : Nat) :
    Outcome :=
  match getRoom s roomId with
  | none => roomNotFound s socketId
  | some room =>
    let r := room.createSendTransport eng s.log socketId
    match r.value with
    | .error e => { state := writeBack s roomId r, sent := [], thrown := some e }
    | .ok t =>
      { state := writeBack s roomId r,
        sent := [Message.reply socketId
          (Reply.transportParams t.id t.iceParameters t.iceCandidates t.dtlsParameters)],
        thrown := none }

/-- The `connectSendTransport` handler; it takes no callback. -/
def connectSendTransport (eng : Engine) (s : ServerState)
    (socketId roomId dtlsParameters : Nat) : Outcome :=
  match getRoom s roomId with
  | none => { state := s, sent := [], thrown := none }
  | some room =>
    let r := room.connectSendTransport eng s.log socketId dtlsParameters
    match r.value with
    | .error e => { state := writeBack s roomId r, sent := [], thrown := some e }
    | .ok _ => { state := writeBack s roomId r, sent := [], thrown := none }

/-- The `produce` handler: the broadcast precedes the reply. -/
def produce (eng : Engine) (s : ServerState) (socketId roomId : Nat) (kind : String)
    (rtpParameters : Nat) : Outcome :=
  match getRoom s roomId with
  | none => roomNotFound s socketId
  | some room =>
    let r := room.produce eng s.log socketId kind rtpParameters
    match r.value with
    | .error e => { state := writeBack s roomId r, sent := [], thrown := some e }
    | .ok producerId =>
      let s' := writeBack s roomId r
      { state := s',
        sent := broadcast s' socketId roomId
            (Notification.newProducer producerId socketId kind)
          ++ [Message.reply socketId (Reply.produced producerId)],
        thrown := none }

/-- The `createRecvTransport` handler. -/
def createRecvTransport (eng : Engine) (s : ServerState) (socketId roomId : Nat) :
    Outcome :=
  match getRoom s roomId with
  | none => roomNotFound s socketId
  | some room =>
    let r := room.createRecvTransport eng s.log socketId
    match r.value with
    | .error e => { state := writeBack s roomId r, sent := [], thrown := some e }
    | .ok t =>
      { state := writeBack s roomId r,
        sent := [Message.reply socketId
          (Reply.transportParams t.id t.iceParameters t.iceCandidates t.dtlsParameters)],
        thrown := none }

/-- The `connectRecvTransport` handler; it takes no callback. -/
def connectRecvTransport (eng : Engine) (s : ServerState)
    (socketId roomId dtlsParameters : Nat) : Outcome :=
  match getRoom s roomId with
  | none => { state := s, sent := [], thrown := none }
  | some room =>
    let r := room.connectRecvTransport eng s.log socketId dtlsParameters
    match r.value with
    | .error e => { state := writeBack s roomId r, sent := [], thrown := some e }
    | .ok _ => { state := writeBack s roomId r, sent := [], thrown := none }

/-- The `consume` handler; its `try`/`catch` turns every exception into an
error reply. -/
def consume (eng : Engine) (s : ServerState)
    (socketId roomId producerId rtpCapabilities : Nat) : Outcome :=
  match getRoom s roomId with
  | none => roomNotFound s socketId
  | some room =>
    if eng.canConsume s.log room.router producerId rtpCapabilities then
      let r := room.consume eng s.log socketId producerId rtpCapabilities
      match r.value with
      | .error e =>
        { state := writeBack s roomId r,
          sent := [Message.reply socketId (Reply.error e)], thrown := none }
      | .ok consumer =>
        { state := writeBack s roomId r,
          sent := [Message.reply socketId
            (Reply.consumed consumer.id producerId consumer.kind consumer.rtpParameters)],
          thrown := none }
    else
      { state := s, sent := [Message.reply socketId (Reply.error "Cannot consume")],
        thrown := none }

/-- The `resumeConsumer` handler; it takes no callback. -/
def resumeConsumer (eng : Engine) (s : ServerState)
    (socketId roomId consumerId : Nat) : Outcome :=
  match getRoom s roomId with
  | none => { state := s, sent := [], thrown := none }
  | some room =>
    let r := room.resumeConsumer eng s.log socketId consumerId
    match r.value with
    | .error e => { state := writeBack s roomId r, sent := [], thrown := some e }
    | .ok _ => { state := writeBack s roomId r, sent := [], thrown := none }

/-- A signaling request together with the socket it arrived on. -/
inductive Request where
  | joinRoom (socketId roomId : Nat) (name : String)
  | createSendTransport (socketId roomId : Nat)
  | connectSendTransport (socketId roomId dtlsParameters : Nat)
  | produce (socketId roomId : Nat) (kind : String) (rtpParameters : Nat)
  | createRecvTransport (socketId roomId : Nat)
  | connectRecvTransport (socketId roomId dtlsParameters : Nat)
  | consume (socketId roomId producerId rtpCapabilities : Nat)
  | resumeConsumer (socketId roomId consumerId : Nat)
deriving DecidableEq, Repr

/-- Dispatch of a request to its handler. -/
def handle (eng : Engine) (s : ServerState) : Request → Outcome
  | .joinRoom socketId roomId name => joinRoom eng s socketId roomId name
  | .createSendTransport socketId roomId => createSendTransport eng s socketId roomId
  | .connectSendTransport socketId roomId dtls =>
    connectSendTransport eng s socketId roomId dtls
  | .produce socketId roomId kind rtp => produce eng s socketId roomId kind rtp
  | .createRecvTransport socketId roomId => createRecvTransport eng s socketId roomId
  | .connectRecvTransport socketId roomId dtls =>
    connectRecvTransport eng s socketId roomId dtls
  | .consume socketId roomId producerId caps =>
    consume eng s socketId roomId producerId caps
  | .resumeConsumer socketId roomId consumerId =>
    resumeConsumer eng s socketId roomId consumerId

/-- The state after handling the requests one after another; an exception that
escapes a handler ends that handler only. -/
def run (eng : Engine) (s : ServerState) : List Request → ServerState
  | [] => s
  | req :: rest => run eng (handle eng s req).state rest

/-- The messages sent while handling the requests one after another. -/
def runSent (eng : Engine) (s : ServerState) : List Request → List Message
  | [] => []
  | req :: rest => (handle eng s req).sent ++ runSent eng (handle eng s req).state rest

/-! ## Client session (`video-conference-frontend/src/App.jsx`) -/

/-- An element of the `participants` state of `App.jsx`; `stream` is the handle
of a `MediaStream`, `streamKey` the value of `Date.now()` when it was set. -/
structure Participant where
  id : Nat
  name : String
  isHost : Bool
  stream : Option Nat
  streamKey : Nat
deriving DecidableEq, Repr

/-- The list `initialParticipants` that `enterRoom` builds from the roster of
the `joinRoom` reply; `socketId` is the client's own `socket.id` and `now` the
reading of `Date.now()`. -/
def initialParticipants (peers : List PeerInfo) (socketId now : Nat) : List Participant :=
  (peers.filter fun p => p.id != socketId).map fun p =>
    { id := p.id, name := p.name, isHost := p.isHost, stream := none, streamKey := now }

/-- The state update of the `newPeer` listener of `App.jsx`: the list is kept
when an entry with the id exists, otherwise a new entry without stream is
appended. -/
def newPeerUpdate (prev : List Participant) (id : Nat) (name : String) (isHost : Bool)
    (now : Nat) : List Participant :=
  match prev.find? fun p => p.id == id with
  | some _ => prev
  | none =>
    prev ++ [{ id := id, name := name, isHost := isHost, stream := none, streamKey := now }]

/-- The state update of the stream callback that `enterRoom` passes to
`joinRoom`: the entry with the id gets the stream and a new key, or, when no
entry has the id, a "Remote User" entry is appended. -/
def streamUpdate (prevParticipants : List Participant) (peerId stream now : Nat) :
    List Participant :=
  if prevParticipants.any fun p => p.id == peerId then
    prevParticipants.map fun p =>
      if p.id == peerId then { p with stream := some stream, streamKey := now } else p
  else
    prevParticipants ++
      [{ id := peerId, name := "Remote User", isHost := false, stream := some stream,
         streamKey := now }]

/-- An update of the `participants` state: a `newPeer` event or a call of the
stream callback. -/
inductive ParticipantEvent where
  | newPeer (id : Nat) (name : String) (isHost : Bool) (now : Nat)
  | stream (peerId stream now : Nat)
deriving DecidableEq, Repr

/-- The `participants` state after one update. -/
def applyEvent (participants : List Participant) : ParticipantEvent → List Participant
  | .newPeer id name isHost now => newPeerUpdate participants id name isHost now
  | .stream peerId stream now => streamUpdate participants peerId stream now

/-! ## Client session (`video-conference-frontend/src/webrtc.js`) -/

/-- The browser method `MediaStream.addTrack` on the track set of a stream,
kept as the list of track ids in the order they were added: a track that is
already in the set is not added again. -/
def addTrack (stream : List Nat) (track : Nat) : List Nat :=
  if track ∈ stream then stream else stream ++ [track]

/-- How the `consume` round trip of `consumeStream` ends: with `res.error`, or
with the track of the consumer that `recvTransport.consume` built. -/
inductive ConsumeResult where
  | error (message : String)
  | track (id : Nat)
deriving DecidableEq, Repr

/-- The function `consumeStream(roomId, producerId, peerId, onNewStream)` on
the `peerStreams` map: nothing happens for a missing `producerId` or an error
response; otherwise the stream of `peerId` is fetched, or created and stored,
and the track is added to it. -/
def consumeStream (peerStreams : List (Nat × List Nat)) (producerId : Option Nat)
    (peerId : Nat) (res : ConsumeResult) : List (Nat × List Nat) :=
  match producerId with
  | none => peerStreams
  | some _ =>
    match res with
    | .error _ => peerStreams
    | .track track =>
      match mapGet peerStreams peerId with
      | none => mapSet peerStreams peerId (addTrack [] track)
      | some peerStream => mapSet peerStreams peerId (addTrack peerStream track)

/-- The tracks in the stream that `peerStreams` keeps for a peer; none when it
keeps no stream for it. -/
def tracksOf (peerStreams : List (Nat × List Nat)) (peerId : Nat) : List Nat :=
  (mapGet peerStreams peerId).getD []

/-- The `peerStreams` map after a sequence of successful consume responses,
each given by the peer it is for, the producer consumed and the track
delivered. -/
def consumeAll (peerStreams : List (Nat × List Nat)) :
    List (Nat × Nat × Nat) → List (Nat × List Nat)
  | [] => peerStreams
  | (peerId, producerId, track) :: rest =>
    consumeAll (consumeStream peerStreams (some producerId) peerId (.track track)) rest

/-- The loop of `joinRoom` in webrtc.js commented "Consume all existing
producers": for every entry of the roster, in order, the ids of its
videoProducers and then of its audioProducers are handed to `consumeStream`,
which emits one `consume` request each with the capabilities of the loaded
device.  Roster ids are the engine's producer ids, never a missing value, so
the `producerId` guard of `consumeStream` lets all of them pass. -/
def consumeExisting (socketId roomId rtpCapabilities : Nat) (peers : List PeerInfo) :
    List Request :=
  peers.flatMap fun p =>
    (p.videoProducers ++ p.audioProducers).map fun prodId =>
      Request.consume socketId roomId prodId rtpCapabilities

/-- The end of the response callback of `consumeStream`: for a response without
`error`, once the consumer is built with the id of the response, the client
emits `resumeConsumer` with that id; for any other response it emits nothing. -/
def resumeAfterConsume (socketId roomId : Nat) : Reply → List Request
  | .consumed id _ _ _ => [Request.resumeConsumer socketId roomId id]
  | _ => []

/-! ## Sample engine and sample states -/

/-- A media engine that accepts every request and numbers the objects it
creates by the length of the request log; capabilities `0` are compatible with
no producer. -/
def demoEngine : Engine where
  createRouter log := .ok { id := log.length, rtpCapabilities := 7 }
  createWebRtcTransport log _ :=
    .ok { id := log.length, iceParameters := 1, iceCandidates := 2, dtlsParameters := 3 }
  connect _ _ _ := .ok ()
  produce log _ _ _ := .ok log.length
  canConsume _ _ _ caps := caps != 0
  consume log _ producerId _ :=
    .ok { id := log.length, producerId := producerId, kind := "video", rtpParameters := 4 }
  resume _ _ := .ok ()

/-- Peer 1 has joined room 10 (and so created it). -/
def stateJoined : ServerState :=
  run demoEngine ServerState.init [.joinRoom 1 10 "A"]

/-- Peer 1 has joined room 10, created its send transport and published one
video track; no `connectSendTransport` request was made. -/
def statePublished : ServerState :=
  run demoEngine ServerState.init
    [.joinRoom 1 10 "A", .createSendTransport 1 10, .produce 1 10 "video" 5]

/-- The peer object of peer 1 in `stateJoined`. -/
def peerJoined : Peer :=
  { id := 1, name := "A", isHost := true, sendTransport := none, recvTransport := none,
    producers := [], consumers := [] }

/-- The room registered under id 10 in `stateJoined`. -/
def roomJoined : Room :=
  { id := 10, router := { id := 0, rtpCapabilities := 7 }, peers := [(1, peerJoined)] }

/-- The peer object of peer 1 in `statePublished`. -/
def peerPublished : Peer :=
  { peerJoined with
    sendTransport :=
      some { id := 1, iceParameters := 1, iceCandidates := 2, dtlsParameters := 3 },
    producers := [{ id := 2, kind := "video" }] }

/-- The room registered under id 10 in `statePublished`. -/
def roomPublished : Room :=
  { id := 10, router := { id := 0, rtpCapabilities := 7 }, peers := [(1, peerPublished)] }

/-- Peers 1 and 2 have joined room 10 and peer 1 has created its send
transport. -/
def stateTwoPeers : ServerState :=
  run demoEngine ServerState.init
    [.joinRoom 1 10 "A", .joinRoom 2 10 "B", .createSendTransport 1 10]

/-- Peers 1 and 2 are in room 10; peer 1 publishes video producer 2 and peer 2
holds consumer 4 of it on its recv transport 3. -/
def stateConsuming : ServerState :=
  run demoEngine ServerState.init
    [.joinRoom 1 10 "A", .joinRoom 2 10 "B", .createSendTransport 1 10,
     .produce 1 10 "video" 5, .createRecvTransport 2 10, .consume 2 10 2 9]

/-- Two `joinRoom` handlers for the same room id, the second one started while
the first is suspended at `await createRoom`: both run up to their suspension
point, then the first resumes and runs to its end, then the second.  The
result is `none` when one of the two finds the room and so never suspends. -/
def interleavedJoins (eng : Engine) (s : ServerState) (a b roomId : Nat)
    (nameA nameB : String) : Option (Outcome × Outcome) :=
  match joinRoomBegin eng s a roomId nameA with
  | .inl _ => none
  | .inr (s1, pendingA) =>
    match joinRoomBegin eng s1 b roomId nameB with
    | .inl _ => none
    | .inr (s2, pendingB) =>
      let doneA := joinRoomResume s2 pendingA
      some (doneA, joinRoomResume doneA.state pendingB)

/-- Every peer of the room `after` is a peer of the room `before`, under the
same key and with the same id. -/
def PeersKept (before after : Room) : Prop :=
  ∀ q p', mapGet after.peers q = some p' →
    ∃ p, mapGet before.peers q = some p ∧ p'.id = p.id

/-- Consistency of the registry with socket.io: every peer object of a
registered room carries the key it is stored under as its id, and its socket
is in the socket.io room of that name. -/
def Consistent (s : ServerState) : Prop :=
  ∀ roomId room, getRoom s roomId = some room →
    ∀ q p, mapGet room.peers q = some p → p.id = q ∧ q ∈ socketsIn s roomId

/-- Every producer entry on the list of a peer of the room `before` is still
on the list of that peer in the room `after`. -/
def ProducersKept (before after : Room) : Prop :=
  ∀ q p entry, mapGet before.peers q = some p → entry ∈ p.producers →
    ∃ p', mapGet after.peers q = some p' ∧ entry ∈ p'.producers

/-- The peer stored under `peerId` in the registered room `roomId` has the
producer entry on its list. -/
def HoldsProducer (s : ServerState) (roomId peerId : Nat) (entry : ProducerEntry) : Prop :=
  ∃ room p, getRoom s roomId = some room ∧ mapGet room.peers peerId = some p
    ∧ entry ∈ p.producers

/-! ## Lemmas on `Map` -/

theorem mapGet_mapSet_self {α : Type} (m : List (Nat × α)) (k : Nat) (v : α) :
    mapGet (mapSet m k v) k = some v := by
  induction m with
  | nil => simp [mapSet, mapGet]
  | cons e rest ih =>
    obtain ⟨k', v'⟩ := e
    by_cases h : k' = k
    · simp [mapSet, mapGet, h]
    · simp [mapSet, mapGet, h, ih]

theorem mapGet_mapSet_ne {α : Type} (m : List (Nat × α)) (k q : Nat) (v : α)
    (hq : q ≠ k) : mapGet (mapSet m k v) q = mapGet m q := by
  induction m with
  | nil => simp [mapSet, mapGet, Ne.symm hq]
  | cons e rest ih =>
    obtain ⟨k', v'⟩ := e
    by_cases h : k' = k
    · subst h
      simp [mapSet, mapGet, Ne.symm hq]
    · by_cases h' : k' = q
      · subst h'
        simp [mapSet, mapGet, hq]
      · simp [mapSet, mapGet, h, h', ih]

theorem mapSet_of_mapGet {α : Type} (m : List (Nat × α)) (k : Nat) (v : α)
    (h : mapGet m k = some v) : mapSet m k v = m := by
  induction m with
  | nil => simp [mapGet] at h
  | cons e rest ih =>
    obtain ⟨k', v'⟩ := e
    by_cases hk : k' = k
    · subst hk
      simp [mapGet] at h
      simp [mapSet, h]
    · simp [mapGet, hk] at h
      simp [mapSet, hk, ih h]

theorem mem_mapValues_mapSet {α : Type} (m : List (Nat × α)) (k : Nat) (v : α) :
    v ∈ mapValues (mapSet m k v) := by
  induction m with
  | nil => simp [mapSet, mapValues]
  | cons e rest ih =>
    obtain ⟨k', v'⟩ := e
    by_cases h : k' = k
    · simp [mapSet, mapValues, h]
    · simp only [mapSet, h, if_false, mapValues, List.map_cons, List.mem_cons]
      exact Or.inr ih

theorem mapSet_mapSet_self {α : Type} (m : List (Nat × α)) (k : Nat) (v w : α) :
    mapSet (mapSet m k v) k w = mapSet m k w := by
  induction m with
  | nil => simp [mapSet]
  | cons e rest ih =>
    obtain ⟨k', v'⟩ := e
    by_cases h : k' = k
    · simp [mapSet, h]
    · simp [mapSet, h, ih]

theorem mapGet_mapSet_isSome {α : Type} (m : List (Nat × α)) (k q : Nat) (v : α)
    (h : (mapGet m q).isSome) : (mapGet (mapSet m k v) q).isSome := by
  by_cases hq : q = k
  · subst hq
    simp [mapGet_mapSet_self]
  · rw [mapGet_mapSet_ne m k q v hq]
    exact h

/-! ## Lemmas on the `joinRoom` handler -/

theorem joinRoomFinish_sent (s : ServerState) (socketId roomId : Nat) (name : String)
    (room : Room) (isHost : Bool) :
    ∃ peers rest,
      (joinRoomFinish s socketId roomId name room isHost).sent
        = Message.reply socketId (Reply.joined room.router.rtpCapabilities peers isHost)
            :: rest
      ∧ (∀ d r, Message.reply d r ∉ rest)
      ∧ ({ id := socketId, name := name, isHost := isHost, videoProducers := [],
            audioProducers := [] } : PeerInfo) ∈ peers := by
  refine ⟨_, _, rfl, ?_, ?_⟩
  · intro d r hmem
    rcases List.mem_append.1 hmem with h | h
    · simp [broadcast] at h
    · simp only [existingProducers, List.mem_flatMap] at h
      obtain ⟨p, -, hp⟩ := h
      split at hp <;> simp at hp
  · simp only [Room.getPeerList, Room.addPeer, List.mem_map]
    refine ⟨_, mem_mapValues_mapSet _ socketId _, ?_⟩
    simp

theorem joinRoom_cases (eng : Engine) (s : ServerState) (socketId roomId : Nat)
    (name : String) :
    (∃ room, getRoom s roomId = some room
        ∧ joinRoom eng s socketId roomId name
            = joinRoomFinish s socketId roomId name room false)
    ∨ (∃ e, getRoom s roomId = none ∧ eng.createRouter s.log = .error e
        ∧ joinRoom eng s socketId roomId name
            = { state := { s with log := s.log ++ [EngineCall.createRouter] },
                sent := [], thrown := some e })
    ∨ (∃ router, getRoom s roomId = none ∧ eng.createRouter s.log = .ok router
        ∧ joinRoom eng s socketId roomId name
            = joinRoomFinish
                { s with
                  rooms := mapSet s.rooms roomId
                    { id := roomId, router := router, peers := [] },
                  log := s.log ++ [EngineCall.createRouter] }
                socketId roomId name { id := roomId, router := router, peers := [] }
                true) := by
  unfold joinRoom joinRoomBegin
  cases hroom : getRoom s roomId with
  | some room => exact Or.inl ⟨room, rfl, rfl⟩
  | none =>
    cases hr : eng.createRouter s.log with
    | error e => exact Or.inr (Or.inl ⟨e, rfl, rfl, by simp [joinRoomResume]⟩)
    | ok router => exact Or.inr (Or.inr ⟨router, rfl, rfl, by simp [joinRoomResume]⟩)

/-! ## Claims -/

/-- C1 (as stated, refuted): the reply to the first peer that joins room 10
carries a roster with an entry whose id is the id of that joining peer. -/
theorem joinRoom_roster_has_joiner_example :
    ∃ rtp peers isHost,
      Message.reply 1 (Reply.joined rtp peers isHost)
        ∈ (joinRoom demoEngine ServerState.init 1 10 "A").sent
      ∧ ∃ entry ∈ peers, entry.id = 1 :=
  ⟨7, [{ id := 1, name := "A", isHost := true, videoProducers := [],
         audioProducers := [] }], true, by decide, _, List.mem_singleton.2 rfl, rfl⟩

/-- C1 (amended): the peer roster carried in a joinRoom reply always contains
the entry of the joining peer itself, with the name it gave, the host flag of
the reply and no producers; it is the client that leaves its own id out when it
builds its participant list from the roster. -/
theorem joinRoom_roster_contains_joiner (eng : Engine) (s : ServerState)
    (socketId roomId : Nat) (name : String) (rtp : Nat) (peers : List PeerInfo)
    (isHost : Bool)
    (h : Message.reply socketId (Reply.joined rtp peers isHost)
          ∈ (joinRoom eng s socketId roomId name).sent) :
    ({ id := socketId, name := name, isHost := isHost, videoProducers := [],
        audioProducers := [] } : PeerInfo) ∈ peers
    ∧ ∀ now, ∀ q ∈ initialParticipants peers socketId now, q.id ≠ socketId := by
  constructor
  · have key : ∀ (s' : ServerState) (room : Room) (b : Bool),
        Message.reply socketId (Reply.joined rtp peers isHost)
          ∈ (joinRoomFinish s' socketId roomId name room b).sent →
        ({ id := socketId, name := name, isHost := isHost, videoProducers := [],
            audioProducers := [] } : PeerInfo) ∈ peers := by
      intro s' room b hmem
      obtain ⟨peers', rest, hsent, hrest, hin⟩ := joinRoomFinish_sent s' socketId roomId name room b
      rw [hsent] at hmem
      rcases List.mem_cons.1 hmem with heq | hmem'
      · injection heq with _ hpay
        injection hpay with _ hp hb
        subst hp
        subst hb
        exact hin
      · exact absurd hmem' (hrest _ _)
    rcases joinRoom_cases eng s socketId roomId name with
      ⟨room, -, heq⟩ | ⟨e, -, -, heq⟩ | ⟨router, -, -, heq⟩
    · rw [heq] at h
      exact key _ _ _ h
    · rw [heq] at h
      simp at h
    · rw [heq] at h
      exact key _ _ _ h
  · intro now q hq
    simp only [initialParticipants, List.mem_map, List.mem_filter] at hq
    obtain ⟨p, ⟨-, hne⟩, rfl⟩ := hq
    simpa using hne

/-- C1 (amended), at a concrete input: peer 2 joins the room peer 1 publishes
in. -/
theorem joinRoom_roster_contains_joiner_witness :
    ({ id := 2, name := "B", isHost := false, videoProducers := [],
        audioProducers := [] } : PeerInfo)
      ∈ [{ id := 1, name := "A", isHost := true, videoProducers := [2],
           audioProducers := [] },
         { id := 2, name := "B", isHost := false, videoProducers := [],
           audioProducers := [] }]
    ∧ ∀ now, ∀ q ∈ initialParticipants
        [{ id := 1, name := "A", isHost := true, videoProducers := [2],
           audioProducers := [] },
         { id := 2, name := "B", isHost := false, videoProducers := [],
           audioProducers := [] }] 2 now, q.id ≠ 2 :=
  joinRoom_roster_contains_joiner demoEngine statePublished 2 10 "B" 7 _ false
    (by decide)

/-! ## The registry only grows -/

theorem getRoom_socketJoin (s : ServerState) (socketId roomId q : Nat) :
    getRoom (socketJoin s socketId roomId) q = getRoom s q := by
  unfold socketJoin
  split <;> rfl

theorem getRoom_writeBack_isSome {β : Type} (s : ServerState) (roomId q : Nat)
    (r : MethodResult β) (h : (getRoom s q).isSome) :
    (getRoom (writeBack s roomId r) q).isSome :=
  mapGet_mapSet_isSome s.rooms roomId q r.room h

theorem getRoom_joinRoomFinish_isSome (s : ServerState) (socketId roomId : Nat)
    (name : String) (room : Room) (isHost : Bool) (q : Nat)
    (h : (getRoom s q).isSome) :
    (getRoom (joinRoomFinish s socketId roomId name room isHost).state q).isSome := by
  simp only [joinRoomFinish, getRoom_socketJoin]
  exact mapGet_mapSet_isSome s.rooms roomId q _ h

theorem getRoom_joinRoomFinish_self (s : ServerState) (socketId roomId : Nat)
    (name : String) (room : Room) (isHost : Bool) :
    (getRoom (joinRoomFinish s socketId roomId name room isHost).state roomId).isSome := by
  simp only [joinRoomFinish, getRoom_socketJoin]
  simp [getRoom, mapGet_mapSet_self]

theorem getRoom_handle_isSome (eng : Engine) (s : ServerState) (req : Request) (q : Nat)
    (h : (getRoom s q).isSome) : (getRoom (handle eng s req).state q).isSome := by
  cases req with
  | joinRoom socketId roomId name =>
    rcases joinRoom_cases eng s socketId roomId name with
      ⟨room, -, heq⟩ | ⟨e, -, -, heq⟩ | ⟨router, -, -, heq⟩
    · simp only [handle, heq]
      exact getRoom_joinRoomFinish_isSome _ _ _ _ _ _ _ h
    · simp only [handle, heq]
      exact h
    · simp only [handle, heq]
      apply getRoom_joinRoomFinish_isSome
      exact mapGet_mapSet_isSome s.rooms roomId q _ h
  | createSendTransport socketId roomId =>
    simp only [handle, createSendTransport]
    split
    · exact h
    · split <;> exact getRoom_writeBack_isSome _ _ _ _ h
  | connectSendTransport socketId roomId dtls =>
    simp only [handle, connectSendTransport]
    split
    · exact h
    · split <;> exact getRoom_writeBack_isSome _ _ _ _ h
  | produce socketId roomId kind rtp =>
    simp only [handle, produce]
    split
    · exact h
    · split <;> exact getRoom_writeBack_isSome _ _ _ _ h
  | createRecvTransport socketId roomId =>
    simp only [handle, createRecvTransport]
    split
    · exact h
    · split <;> exact getRoom_writeBack_isSome _ _ _ _ h
  | connectRecvTransport socketId roomId dtls =>
    simp only [handle, connectRecvTransport]
    split
    · exact h
    · split <;> exact getRoom_writeBack_isSome _ _ _ _ h
  | consume socketId roomId producerId caps =>
    simp only [handle, consume]
    split
    · exact h
    · split
      · split <;> exact getRoom_writeBack_isSome _ _ _ _ h
      · exact h
  | resumeConsumer socketId roomId consumerId =>
    simp only [handle, resumeConsumer]
    split
    · exact h
    · split <;> exact getRoom_writeBack_isSome _ _ _ _ h

theorem getRoom_run_isSome (eng : Engine) (reqs : List Request) (s : ServerState) (q : Nat)
    (h : (getRoom s q).isSome) : (getRoom (run eng s reqs) q).isSome := by
  induction reqs generalizing s with
  | nil => exact h
  | cons req rest ih => exact ih _ (getRoom_handle_isSome eng s req q h)

/-- C2: when joinRoom requests are handled one after another, the join that
finds the room id absent from the registry (and whose router is created) is
answered with isHost = true, and every join for that room id handled later,
from any connection and after any other requests, is answered with
isHost = false; each of these handler runs sends exactly one reply. -/
theorem joinRoom_first_is_host_later_not (eng : Engine) (s : ServerState)
    (a roomId : Nat) (nameA : String) (router : Router)
    (hnew : getRoom s roomId = none) (hrouter : eng.createRouter s.log = .ok router)
    (reqs : List Request) (b : Nat) (nameB : String) :
    (∃ peers rest,
        (joinRoom eng s a roomId nameA).sent
          = Message.reply a (Reply.joined router.rtpCapabilities peers true) :: rest
        ∧ ∀ d r, Message.reply d r ∉ rest)
    ∧ (∃ rtp peers rest,
        (joinRoom eng (run eng (joinRoom eng s a roomId nameA).state reqs) b roomId nameB).sent
          = Message.reply b (Reply.joined rtp peers false) :: rest
        ∧ ∀ d r, Message.reply d r ∉ rest) := by
  have hfirst : joinRoom eng s a roomId nameA
      = joinRoomFinish
          { s with
            rooms := mapSet s.rooms roomId { id := roomId, router := router, peers := [] },
            log := s.log ++ [EngineCall.createRouter] }
          a roomId nameA { id := roomId, router := router, peers := [] } true := by
    rcases joinRoom_cases eng s a roomId nameA with
      ⟨room, hroom, -⟩ | ⟨e, -, he, -⟩ | ⟨router', -, hr', heq⟩
    · rw [hnew] at hroom
      cases hroom
    · rw [hrouter] at he
      cases he
    · rw [hrouter] at hr'
      cases hr'
      exact heq
  constructor
  · rw [hfirst]
    obtain ⟨peers, rest, hsent, hrest, -⟩ :=
      joinRoomFinish_sent
        { s with
          rooms := mapSet s.rooms roomId { id := roomId, router := router, peers := [] },
          log := s.log ++ [EngineCall.createRouter] }
        a roomId nameA { id := roomId, router := router, peers := [] } true
    exact ⟨peers, rest, hsent, hrest⟩
  · have hreg : (getRoom (run eng (joinRoom eng s a roomId nameA).state reqs) roomId).isSome := by
      apply getRoom_run_isSome
      rw [hfirst]
      exact getRoom_joinRoomFinish_self _ _ _ _ _ _
    rcases joinRoom_cases eng (run eng (joinRoom eng s a roomId nameA).state reqs) b roomId nameB
      with ⟨room, -, heq⟩ | ⟨e, hnone, -, -⟩ | ⟨router', hnone, -, -⟩
    · rw [heq]
      obtain ⟨peers, rest, hsent, hrest, -⟩ := joinRoomFinish_sent
        (run eng (joinRoom eng s a roomId nameA).state reqs) b roomId nameB room false
      exact ⟨_, peers, rest, hsent, hrest⟩
    · rw [hnone] at hreg
      cases hreg
    · rw [hnone] at hreg
      cases hreg

/-- C2, at a concrete input: peer 1 opens room 10, publishes, and peer 2 joins
afterwards. -/
theorem joinRoom_first_is_host_later_not_witness :
    (∃ peers rest,
        (joinRoom demoEngine ServerState.init 1 10 "A").sent
          = Message.reply 1 (Reply.joined 7 peers true) :: rest
        ∧ ∀ d r, Message.reply d r ∉ rest)
    ∧ (∃ rtp peers rest,
        (joinRoom demoEngine
            (run demoEngine (joinRoom demoEngine ServerState.init 1 10 "A").state
              [.createSendTransport 1 10, .produce 1 10 "video" 5])
            2 10 "B").sent
          = Message.reply 2 (Reply.joined rtp peers false) :: rest
        ∧ ∀ d r, Message.reply d r ∉ rest) :=
  joinRoom_first_is_host_later_not demoEngine ServerState.init 1 10 "A"
    { id := 0, rtpCapabilities := 7 } (by decide) (by rfl)
    [.createSendTransport 1 10, .produce 1 10 "video" 5] 2 "B"

/-! ## Handlers that leave the state as it is -/

theorem writeBack_same {β : Type} (s : ServerState) (roomId : Nat) (room : Room)
    (value : Except String β) (hroom : getRoom s roomId = some room) :
    writeBack s roomId { room := room, log := s.log, value := value } = s := by
  unfold writeBack
  simp only
  rw [mapSet_of_mapGet s.rooms roomId room hroom]

/-- C3 (evaluation at the failing input): connections 1 and 2 both ask to join
the unseen room 10 and the second handler starts while the first is suspended
in `createRoom`.  Both are answered with isHost = true, each roster holds only
its own peer, and the room left in the registry holds peer 2 alone: peer 1 sits
in a Room that is no longer registered. -/
theorem interleavedJoins_two_hosts :
    ∃ doneA doneB,
      interleavedJoins demoEngine ServerState.init 1 2 10 "A" "B" = some (doneA, doneB)
      ∧ doneA.sent
          = [Message.reply 1 (Reply.joined 7
              [{ id := 1, name := "A", isHost := true, videoProducers := [],
                 audioProducers := [] }] true)]
      ∧ doneB.sent
          = [Message.reply 2 (Reply.joined 7
              [{ id := 2, name := "B", isHost := true, videoProducers := [],
                 audioProducers := [] }] true),
             Message.emit 1 (Notification.newPeer 2 "B" true)]
      ∧ (getRoom doneB.state 10).map (fun room => room.peers.map Prod.fst) = some [2]
      ∧ (getRoom doneA.state 10).map (fun room => room.router.id) = some 0
      ∧ (getRoom doneB.state 10).map (fun room => room.router.id) = some 1 :=
  ⟨_, _, rfl, by decide, by decide, by decide, by decide, by decide⟩

/-- C4: a consume request on an existing room whose router answers the
canConsume check for (producerId, rtpCapabilities) with false is answered with
the single reply "Cannot consume"; nothing escapes the handler and the state
is the state before, so no consumer was requested from any transport (the
engine log is the same) and every consumers list is the same. -/
theorem consume_cannot_consume (eng : Engine) (s : ServerState)
    (socketId roomId producerId rtpCapabilities : Nat) (room : Room)
    (hroom : getRoom s roomId = some room)
    (hcan : eng.canConsume s.log room.router producerId rtpCapabilities = false) :
    consume eng s socketId roomId producerId rtpCapabilities
      = { state := s,
          sent := [Message.reply socketId (Reply.error "Cannot consume")],
          thrown := none } := by
  simp [consume, hroom, hcan]

/-- C4, at a concrete input: peer 2 asks for producer 2 of room 10 with the
capabilities the sample engine matches with no producer. -/
theorem consume_cannot_consume_witness :
    consume demoEngine statePublished 2 10 2 0
      = { state := statePublished,
          sent := [Message.reply 2 (Reply.error "Cannot consume")],
          thrown := none } :=
  consume_cannot_consume demoEngine statePublished 2 10 2 0 roomPublished
    (by decide) (by decide)

/-- C5 (as stated, refuted): peer 1 joins room 10 and creates its send
transport; the engine was never asked to connect it.  Its produce request is
answered with the new producer id 2, and the producer is on its list. -/
theorem produce_before_connect_example :
    (run demoEngine ServerState.init [.joinRoom 1 10 "A", .createSendTransport 1 10]).log
      = [EngineCall.createRouter, EngineCall.createWebRtcTransport 0]
    ∧ (produce demoEngine
        (run demoEngine ServerState.init [.joinRoom 1 10 "A", .createSendTransport 1 10])
        1 10 "video" 5).sent = [Message.reply 1 (Reply.produced 2)]
    ∧ (produce demoEngine
        (run demoEngine ServerState.init [.joinRoom 1 10 "A", .createSendTransport 1 10])
        1 10 "video" 5).thrown = none
    ∧ ((getRoom (produce demoEngine
          (run demoEngine ServerState.init [.joinRoom 1 10 "A", .createSendTransport 1 10])
          1 10 "video" 5).state 10).bind fun room => mapGet room.peers 1).map
        (fun peer => peer.producers) = some [{ id := 2, kind := "video" }] := by
  decide

/-- C5 (amended): the produce handler looks at the peer's send transport slot
only.  With a slot that was never filled the request fails: the room method
throws before the engine is asked, no producer id is replied, no notification
is sent and the state, with every producers list, is the state before.  With a
transport in the slot the coordinator makes no check of its own, connected or
not: it asks the engine, and when the engine creates the producer the request
succeeds (the producer is appended to the peer's list, the others are
notified and the id is replied); when the engine rejects, the room method
throws the engine's error, no producer is created and the registry is
unchanged. -/
theorem produce_by_transport_slot (eng : Engine) (s : ServerState)
    (socketId roomId : Nat) (kind : String) (rtpParameters : Nat) (room : Room)
    (peer : Peer) (hroom : getRoom s roomId = some room)
    (hpeer : mapGet room.peers socketId = some peer) :
    (peer.sendTransport = none →
      (∃ e, (room.produce eng s.log socketId kind rtpParameters).value = .error e)
      ∧ (produce eng s socketId roomId kind rtpParameters).state = s
      ∧ (∀ producerId, Message.reply socketId (Reply.produced producerId)
          ∉ (produce eng s socketId roomId kind rtpParameters).sent)
      ∧ (∀ dest event, Message.emit dest event
          ∉ (produce eng s socketId roomId kind rtpParameters).sent))
    ∧ (∀ transport producerId, peer.sendTransport = some transport →
      eng.produce s.log transport kind rtpParameters = .ok producerId →
      produce eng s socketId roomId kind rtpParameters
        = { state :=
              { rooms := mapSet s.rooms roomId
                  { room with
                    peers := mapSet room.peers socketId
                      { peer with
                        producers :=
                          peer.producers ++ [{ id := producerId, kind := kind }] } },
                members := s.members,
                log := s.log ++ [EngineCall.produce transport.id kind rtpParameters] },
            sent := broadcast s socketId roomId
                (Notification.newProducer producerId socketId kind)
              ++ [Message.reply socketId (Reply.produced producerId)],
            thrown := none })
    ∧ (∀ transport e, peer.sendTransport = some transport →
      eng.produce s.log transport kind rtpParameters = .error e →
      (room.produce eng s.log socketId kind rtpParameters).value = .error e
      ∧ (produce eng s socketId roomId kind rtpParameters).state
          = { s with log := s.log ++ [EngineCall.produce transport.id kind rtpParameters] }
      ∧ (∀ producerId, Message.reply socketId (Reply.produced producerId)
          ∉ (produce eng s socketId roomId kind rtpParameters).sent)
      ∧ (∀ dest event, Message.emit dest event
          ∉ (produce eng s socketId roomId kind rtpParameters).sent)) := by
  have hrooms : mapSet s.rooms roomId room = s.rooms := mapSet_of_mapGet _ _ _ hroom
  refine ⟨?_, ?_, ?_⟩
  · intro hslot
    have hout : produce eng s socketId roomId kind rtpParameters
        = { state := s, sent := [], thrown := some (typeError "null" "produce") } := by
      simp [produce, hroom, Room.produce, hpeer, hslot,
        writeBack_same s roomId room _ hroom]
    rw [hout]
    refine ⟨⟨typeError "null" "produce", by simp [Room.produce, hpeer, hslot]⟩, rfl,
      ?_, ?_⟩
    · intro producerId h
      cases h
    · intro dest event h
      cases h
  · intro transport producerId hslot heng
    simp [produce, hroom, Room.produce, hpeer, hslot, heng, writeBack, broadcast,
      socketsIn]
  · intro transport e hslot heng
    have hout : produce eng s socketId roomId kind rtpParameters
        = { state :=
              { s with
                log := s.log ++ [EngineCall.produce transport.id kind rtpParameters] },
            sent := [], thrown := some e } := by
      simp [produce, hroom, Room.produce, hpeer, hslot, heng, writeBack, hrooms]
    rw [hout]
    refine ⟨by simp [Room.produce, hpeer, hslot, heng], rfl, ?_, ?_⟩
    · intro producerId h
      cases h
    · intro dest event h
      cases h

/-- C5 (amended), at a concrete input: peer 1 has joined room 10 and created its
send transport, which was never connected; its produce request succeeds. -/
theorem produce_by_transport_slot_witness :
    (produce demoEngine
        (run demoEngine ServerState.init [.joinRoom 1 10 "A", .createSendTransport 1 10])
        1 10 "video" 5).sent = [Message.reply 1 (Reply.produced 2)]
    ∧ (produce demoEngine
        (run demoEngine ServerState.init [.joinRoom 1 10 "A", .createSendTransport 1 10])
        1 10 "video" 5).state = statePublished :=
  have h := (produce_by_transport_slot demoEngine
    (run demoEngine ServerState.init [.joinRoom 1 10 "A", .createSendTransport 1 10])
    1 10 "video" 5 _ _ rfl rfl).2.1
    { id := 1, iceParameters := 1, iceCandidates := 2, dtlsParameters := 3 } 2 rfl rfl
  ⟨by rw [h]; rfl, by rw [h]; rfl⟩

/-- C6 (as stated, refuted): peer 1 has joined room 10 and created no
transport; on its connectSendTransport request the handler sends nothing at
all, so the failure is not reported to the requesting client. -/
theorem connectSendTransport_absent_example :
    (connectSendTransport demoEngine stateJoined 1 10 3).sent = []
    ∧ (connectSendTransport demoEngine stateJoined 1 10 3).thrown
        = some (typeError "null" "connect") := by
  decide

/-- C6 (amended): for a peer whose send (resp. recv) transport slot is still
absent, connectSendTransport (resp. connectRecvTransport) fails with a
TypeError that escapes the handler; the handler has no reply channel and sends
nothing to any client, the engine is asked nothing and the state, with the
peer in it, is the state before. -/
theorem connectTransport_absent (eng : Engine) (s : ServerState)
    (socketId roomId dtlsParameters : Nat) (room : Room) (peer : Peer)
    (hroom : getRoom s roomId = some room)
    (hpeer : mapGet room.peers socketId = some peer) :
    (peer.sendTransport = none →
      connectSendTransport eng s socketId roomId dtlsParameters
        = { state := s, sent := [], thrown := some (typeError "null" "connect") })
    ∧ (peer.recvTransport = none →
      connectRecvTransport eng s socketId roomId dtlsParameters
        = { state := s, sent := [], thrown := some (typeError "null" "connect") }) := by
  constructor
  · intro hslot
    simp [connectSendTransport, hroom, Room.connectSendTransport, hpeer, hslot,
      writeBack_same s roomId room _ hroom]
  · intro hslot
    simp [connectRecvTransport, hroom, Room.connectRecvTransport, hpeer, hslot,
      writeBack_same s roomId room _ hroom]

/-- C6 (amended), at a concrete input: peer 1 has joined room 10 and nothing
more. -/
theorem connectTransport_absent_witness :
    connectSendTransport demoEngine stateJoined 1 10 3
        = { state := stateJoined, sent := [],
            thrown := some (typeError "null" "connect") }
    ∧ connectRecvTransport demoEngine stateJoined 1 10 3
        = { state := stateJoined, sent := [],
            thrown := some (typeError "null" "connect") } :=
  have h := connectTransport_absent demoEngine stateJoined 1 10 3 roomJoined peerJoined
    (by decide) (by decide)
  ⟨h.1 rfl, h.2 rfl⟩

/-! ## Publishing -/

theorem mapGet_mapSet {α : Type} (m : List (Nat × α)) (k q : Nat) (v : α) :
    mapGet (mapSet m k v) q = if q = k then some v else mapGet m q := by
  by_cases h : q = k
  · subst h
    simp [mapGet_mapSet_self]
  · simp [h, mapGet_mapSet_ne m k q v h]

theorem mapSet_keys_of_mapGet {α : Type} (m : List (Nat × α)) (k : Nat) (v w : α)
    (h : mapGet m k = some v) : (mapSet m k w).map Prod.fst = m.map Prod.fst := by
  induction m with
  | nil => simp [mapGet] at h
  | cons e rest ih =>
    obtain ⟨k', v'⟩ := e
    by_cases hk : k' = k
    · simp [mapSet, hk]
    · simp [mapGet, hk] at h
      simp [mapSet, hk, ih h]

/-- C7: for a peer present in the room with a send transport, a successful
produce returns the id the media engine gave the new producer, makes the
peer's producers list its previous list with the one entry {id, kind} appended
at the end (the rest of the peer is as before), keeps the peer map's keys and
leaves every other peer unchanged; when the engine's id is new to the room,
the peers that hold it afterwards are this peer and no other. -/
theorem produce_appends_one_entry (eng : Engine) (log : List EngineCall) (room : Room)
    (peerId : Nat) (kind : String) (rtpParameters : Nat) (peer : Peer)
    (transport : Transport) (producerId : Nat)
    (hpeer : mapGet room.peers peerId = some peer)
    (hslot : peer.sendTransport = some transport)
    (hok : (room.produce eng log peerId kind rtpParameters).value = .ok producerId) :
    eng.produce log transport kind rtpParameters = .ok producerId
    ∧ mapGet (room.produce eng log peerId kind rtpParameters).room.peers peerId
        = some { peer with
            producers := peer.producers ++ [{ id := producerId, kind := kind }] }
    ∧ (room.produce eng log peerId kind rtpParameters).room.peers.map Prod.fst
        = room.peers.map Prod.fst
    ∧ (∀ q, q ≠ peerId →
        mapGet (room.produce eng log peerId kind rtpParameters).room.peers q
          = mapGet room.peers q)
    ∧ ((∀ q p, mapGet room.peers q = some p → producerId ∉ p.producers.map (·.id)) →
        ∀ q p, mapGet (room.produce eng log peerId kind rtpParameters).room.peers q = some p →
          (producerId ∈ p.producers.map (·.id) ↔ q = peerId)) := by
  cases heng : eng.produce log transport kind rtpParameters with
  | error e =>
    simp [Room.produce, hpeer, hslot, heng] at hok
  | ok pid =>
    have hval : pid = producerId := by
      simpa [Room.produce, hpeer, hslot, heng] using hok
    subst hval
    have hroom : (room.produce eng log peerId kind rtpParameters).room.peers
        = mapSet room.peers peerId
            { peer with producers := peer.producers ++ [{ id := pid, kind := kind }] } := by
      simp [Room.produce, hpeer, hslot, heng]
    rw [hroom]
    refine ⟨rfl, mapGet_mapSet_self _ _ _, mapSet_keys_of_mapGet _ _ _ _ hpeer,
      fun q hq => mapGet_mapSet_ne _ _ _ _ hq, ?_⟩
    intro hfresh q p hp
    rw [mapGet_mapSet] at hp
    by_cases hq : q = peerId
    · simp only [hq, if_true, Option.some.injEq] at hp
      subst hp
      simp [hq]
    · simp only [hq, if_false] at hp
      simp only [hq, iff_false]
      exact hfresh q p hp

/-- C7, at a concrete input: peer 1 of room 10, holding send transport 1 and one
video producer, publishes an audio track. -/
theorem produce_appends_one_entry_witness :
    demoEngine.produce statePublished.log
        { id := 1, iceParameters := 1, iceCandidates := 2, dtlsParameters := 3 } "audio" 6
      = .ok 3
    ∧ mapGet (roomPublished.produce demoEngine statePublished.log 1 "audio" 6).room.peers 1
        = some { peerPublished with
            producers := peerPublished.producers ++ [{ id := 3, kind := "audio" }] }
    ∧ (roomPublished.produce demoEngine statePublished.log 1 "audio" 6).room.peers.map Prod.fst
        = roomPublished.peers.map Prod.fst
    ∧ (∀ q, q ≠ 1 →
        mapGet (roomPublished.produce demoEngine statePublished.log 1 "audio" 6).room.peers q
          = mapGet roomPublished.peers q)
    ∧ ((∀ q p, mapGet roomPublished.peers q = some p → 3 ∉ p.producers.map (·.id)) →
        ∀ q p,
          mapGet (roomPublished.produce demoEngine statePublished.log 1 "audio" 6).room.peers q
            = some p →
          (3 ∈ p.producers.map (·.id) ↔ q = 1)) :=
  produce_appends_one_entry demoEngine statePublished.log roomPublished 1 "audio" 6
    peerPublished { id := 1, iceParameters := 1, iceCandidates := 2, dtlsParameters := 3 }
    3 (by decide) (by decide) (by rfl)

/-! ## Consistency of the registry with the socket.io rooms -/

theorem peersKept_refl (room : Room) : PeersKept room room :=
  fun _ p' hp' => ⟨p', hp', rfl⟩

theorem peersKept_mapSet (room : Room) (k : Nat) (p p' : Peer)
    (hk : mapGet room.peers k = some p) (hid : p'.id = p.id) :
    PeersKept room { room with peers := mapSet room.peers k p' } := by
  intro q x hx
  simp only [mapGet_mapSet] at hx
  by_cases hq : q = k
  · simp only [hq, if_true, Option.some.injEq] at hx
    subst hx
    exact ⟨p, by rw [hq]; exact hk, hid⟩
  · simp only [hq, if_false] at hx
    exact ⟨x, hx, rfl⟩

theorem createSendTransport_peersKept (eng : Engine) (log : List EngineCall) (room : Room)
    (peerId : Nat) : PeersKept room (room.createSendTransport eng log peerId).room := by
  unfold Room.createSendTransport
  split
  · exact peersKept_refl room
  · split
    · exact peersKept_refl room
    · next peer hpeer => exact peersKept_mapSet room peerId peer _ hpeer rfl

theorem createRecvTransport_peersKept (eng : Engine) (log : List EngineCall) (room : Room)
    (peerId : Nat) : PeersKept room (room.createRecvTransport eng log peerId).room := by
  unfold Room.createRecvTransport
  split
  · exact peersKept_refl room
  · split
    · exact peersKept_refl room
    · next peer hpeer => exact peersKept_mapSet room peerId peer _ hpeer rfl

theorem connectSendTransport_peersKept (eng : Engine) (log : List EngineCall) (room : Room)
    (peerId dtls : Nat) :
    PeersKept room (room.connectSendTransport eng log peerId dtls).room := by
  unfold Room.connectSendTransport
  split
  · exact peersKept_refl room
  · split <;> exact peersKept_refl room

theorem connectRecvTransport_peersKept (eng : Engine) (log : List EngineCall) (room : Room)
    (peerId dtls : Nat) :
    PeersKept room (room.connectRecvTransport eng log peerId dtls).room := by
  unfold Room.connectRecvTransport
  split
  · exact peersKept_refl room
  · split <;> exact peersKept_refl room

theorem produce_peersKept (eng : Engine) (log : List EngineCall) (room : Room)
    (peerId : Nat) (kind : String) (rtp : Nat) :
    PeersKept room (room.produce eng log peerId kind rtp).room := by
  unfold Room.produce
  split
  · exact peersKept_refl room
  · next peer hpeer =>
    split
    · exact peersKept_refl room
    · simp only
      split
      · exact peersKept_refl room
      · exact peersKept_mapSet room peerId peer _ hpeer rfl

theorem consume_peersKept (eng : Engine) (log : List EngineCall) (room : Room)
    (peerId producerId caps : Nat) :
    PeersKept room (room.consume eng log peerId producerId caps).room := by
  unfold Room.consume
  split
  · exact peersKept_refl room
  · next peer hpeer =>
    split
    · exact peersKept_refl room
    · simp only
      split
      · exact peersKept_refl room
      · exact peersKept_mapSet room peerId peer _ hpeer rfl

theorem resumeConsumer_peersKept (eng : Engine) (log : List EngineCall) (room : Room)
    (peerId consumerId : Nat) :
    PeersKept room (room.resumeConsumer eng log peerId consumerId).room := by
  unfold Room.resumeConsumer
  split
  · exact peersKept_refl room
  · split <;> exact peersKept_refl room

theorem getRoom_writeBack {β : Type} (s : ServerState) (roomId q : Nat)
    (r : MethodResult β) :
    getRoom (writeBack s roomId r) q = if q = roomId then some r.room else getRoom s q :=
  mapGet_mapSet s.rooms roomId q r.room

theorem consistent_writeBack {β : Type} (s : ServerState) (roomId : Nat) (room : Room)
    (r : MethodResult β) (h : Consistent s) (hroom : getRoom s roomId = some room)
    (hkept : PeersKept room r.room) : Consistent (writeBack s roomId r) := by
  intro R room' hget q p' hp'
  rw [getRoom_writeBack] at hget
  by_cases hR : R = roomId
  · simp only [hR, if_true, Option.some.injEq] at hget
    subst hget
    obtain ⟨p, hp, hid⟩ := hkept q p' hp'
    have := h roomId room hroom q p hp
    rw [hR]
    exact ⟨hid.trans this.1, this.2⟩
  · simp only [hR, if_false] at hget
    exact h R room' hget q p' hp'

theorem socketsIn_socketJoin (s : ServerState) (socketId roomId q : Nat) :
    socketsIn (socketJoin s socketId roomId) q
      = if q = roomId ∧ socketId ∉ socketsIn s roomId then socketsIn s roomId ++ [socketId]
        else socketsIn s q := by
  unfold socketJoin
  by_cases hmem : socketId ∈ socketsIn s roomId
  · simp [hmem]
  · rw [if_neg hmem]
    by_cases hq : q = roomId
    · subst hq
      rw [if_pos ⟨rfl, hmem⟩]
      simp [socketsIn, mapGet_mapSet_self]
    · simp [hq, socketsIn, mapGet_mapSet_ne _ _ _ _ hq]

theorem mem_socketsIn_socketJoin (s : ServerState) (socketId roomId q b : Nat)
    (h : b ∈ socketsIn s q) : b ∈ socketsIn (socketJoin s socketId roomId) q := by
  rw [socketsIn_socketJoin]
  split
  · next hc =>
    rw [hc.1] at h
    exact List.mem_append_left _ h
  · exact h

theorem self_mem_socketsIn_socketJoin (s : ServerState) (socketId roomId : Nat) :
    socketId ∈ socketsIn (socketJoin s socketId roomId) roomId := by
  rw [socketsIn_socketJoin]
  by_cases hmem : socketId ∈ socketsIn s roomId
  · simp [hmem]
  · simp [hmem]

theorem joinRoomFinish_state (s : ServerState) (socketId roomId : Nat) (name : String)
    (room : Room) (isHost : Bool) :
    (joinRoomFinish s socketId roomId name room isHost).state
      = socketJoin
          { s with
            rooms := mapSet s.rooms roomId
              { room with
                peers := mapSet room.peers socketId
                  { id := socketId, name := name, isHost := isHost, sendTransport := none,
                    recvTransport := none, producers := [], consumers := [] } } }
          socketId roomId := by
  simp [joinRoomFinish, Room.addPeer, mapSet_mapSet_self]

theorem consistent_joinRoomFinish (s : ServerState) (socketId roomId : Nat)
    (name : String) (room : Room) (isHost : Bool) (h : Consistent s)
    (hroom : ∀ q p, mapGet room.peers q = some p → p.id = q ∧ q ∈ socketsIn s roomId) :
    Consistent (joinRoomFinish s socketId roomId name room isHost).state := by
  rw [joinRoomFinish_state]
  intro R room' hget q p hp
  rw [getRoom_socketJoin] at hget
  simp only [getRoom, mapGet_mapSet] at hget
  by_cases hR : R = roomId
  · simp only [hR, if_true, Option.some.injEq] at hget
    subst hget
    simp only [mapGet_mapSet] at hp
    rw [hR]
    by_cases hq : q = socketId
    · simp only [hq, if_true, Option.some.injEq] at hp
      subst hp
      rw [hq]
      exact ⟨rfl, self_mem_socketsIn_socketJoin _ _ _⟩
    · simp only [hq, if_false] at hp
      exact ⟨(hroom q p hp).1, mem_socketsIn_socketJoin _ _ _ _ _ (hroom q p hp).2⟩
  · simp only [hR, if_false] at hget
    have := h R room' hget q p hp
    exact ⟨this.1, mem_socketsIn_socketJoin _ _ _ _ _ this.2⟩

theorem consistent_handle (eng : Engine) (s : ServerState) (req : Request)
    (h : Consistent s) : Consistent (handle eng s req).state := by
  cases req with
  | joinRoom socketId roomId name =>
    rcases joinRoom_cases eng s socketId roomId name with
      ⟨room, hroom, heq⟩ | ⟨e, -, -, heq⟩ | ⟨router, hnone, -, heq⟩
    · simp only [handle, heq]
      exact consistent_joinRoomFinish _ _ _ _ _ _ h (h roomId room hroom)
    · simp only [handle, heq]
      exact h
    · simp only [handle, heq]
      apply consistent_joinRoomFinish
      · intro R room' hget q p hp
        simp only [getRoom, mapGet_mapSet] at hget
        by_cases hR : R = roomId
        · simp only [hR, if_true, Option.some.injEq] at hget
          subst hget
          simp [mapGet] at hp
        · simp only [hR, if_false] at hget
          exact h R room' hget q p hp
      · intro q p hp
        simp [mapGet] at hp
  | createSendTransport socketId roomId =>
    simp only [handle, createSendTransport]
    split
    · exact h
    · next room hroom =>
      split <;> exact consistent_writeBack _ _ _ _ h hroom
        (createSendTransport_peersKept _ _ _ _)
  | connectSendTransport socketId roomId dtls =>
    simp only [handle, connectSendTransport]
    split
    · exact h
    · next room hroom =>
      split <;> exact consistent_writeBack _ _ _ _ h hroom
        (connectSendTransport_peersKept _ _ _ _ _)
  | produce socketId roomId kind rtp =>
    simp only [handle, produce]
    split
    · exact h
    · next room hroom =>
      split <;> exact consistent_writeBack _ _ _ _ h hroom
        (produce_peersKept _ _ _ _ _ _)
  | createRecvTransport socketId roomId =>
    simp only [handle, createRecvTransport]
    split
    · exact h
    · next room hroom =>
      split <;> exact consistent_writeBack _ _ _ _ h hroom
        (createRecvTransport_peersKept _ _ _ _)
  | connectRecvTransport socketId roomId dtls =>
    simp only [handle, connectRecvTransport]
    split
    · exact h
    · next room hroom =>
      split <;> exact consistent_writeBack _ _ _ _ h hroom
        (connectRecvTransport_peersKept _ _ _ _ _)
  | consume socketId roomId producerId caps =>
    simp only [handle, consume]
    split
    · exact h
    · next room hroom =>
      split
      · split <;> exact consistent_writeBack _ _ _ _ h hroom
          (consume_peersKept _ _ _ _ _ _)
      · exact h
  | resumeConsumer socketId roomId consumerId =>
    simp only [handle, resumeConsumer]
    split
    · exact h
    · next room hroom =>
      split <;> exact consistent_writeBack _ _ _ _ h hroom
        (resumeConsumer_peersKept _ _ _ _ _)

theorem consistent_init : Consistent ServerState.init := by
  intro R room hget
  simp [getRoom, ServerState.init, mapGet] at hget

theorem consistent_run (eng : Engine) (reqs : List Request) (s : ServerState)
    (h : Consistent s) : Consistent (run eng s reqs) := by
  induction reqs generalizing s with
  | nil => exact h
  | cons req rest ih => exact ih _ (consistent_handle eng s req h)

/-! ## Who is told about a producer -/

theorem mem_mapValues_of_mapGet {α : Type} (m : List (Nat × α)) (k : Nat) (v : α)
    (h : mapGet m k = some v) : v ∈ mapValues m := by
  induction m with
  | nil => simp [mapGet] at h
  | cons e rest ih =>
    obtain ⟨k', v'⟩ := e
    by_cases hk : k' = k
    · simp [mapGet, hk] at h
      simp [mapValues, h]
    · simp [mapGet, hk] at h
      simp only [mapValues, List.map_cons, List.mem_cons]
      exact Or.inr (ih h)

theorem mem_broadcast (s : ServerState) (socketId roomId : Nat) (event : Notification)
    (msg : Message) :
    msg ∈ broadcast s socketId roomId event
      ↔ ∃ b, b ∈ socketsIn s roomId ∧ b ≠ socketId ∧ msg = Message.emit b event := by
  simp only [broadcast, List.mem_map, List.mem_filter]
  constructor
  · rintro ⟨b, ⟨hb, hne⟩, rfl⟩
    exact ⟨b, hb, by simpa using hne, rfl⟩
  · rintro ⟨b, hb, hne, rfl⟩
    exact ⟨b, ⟨hb, by simpa using hne⟩, rfl⟩

theorem produce_sent_of_reply (eng : Engine) (s : ServerState) (a roomId : Nat)
    (kind : String) (rtp producerId : Nat)
    (hok : Message.reply a (Reply.produced producerId)
            ∈ (produce eng s a roomId kind rtp).sent) :
    (produce eng s a roomId kind rtp).sent
      = broadcast s a roomId (Notification.newProducer producerId a kind)
          ++ [Message.reply a (Reply.produced producerId)] := by
  unfold produce at hok ⊢
  cases hroom : getRoom s roomId with
  | none =>
    simp [hroom, roomNotFound] at hok
  | some room =>
    simp only [hroom] at hok ⊢
    cases hval : (Room.produce eng s.log room a kind rtp).value with
    | error e => simp [hval] at hok
    | ok pid =>
      simp only [hval] at hok ⊢
      rcases List.mem_append.1 hok with h | h
      · rw [mem_broadcast] at h
        obtain ⟨b, -, -, hb⟩ := h
        cases hb
      · simp only [List.mem_singleton, Message.reply.injEq, Reply.produced.injEq,
          true_and] at h
        subst h
        rfl

theorem joinRoomFinish_sent_eq (s : ServerState) (socketId roomId : Nat) (name : String)
    (room : Room) (isHost : Bool) :
    (joinRoomFinish s socketId roomId name room isHost).sent
      = Message.reply socketId
          (Reply.joined room.router.rtpCapabilities
            (Room.getPeerList
              { room with
                peers := mapSet room.peers socketId
                  { id := socketId, name := name, isHost := isHost, sendTransport := none,
                    recvTransport := none, producers := [], consumers := [] } })
            isHost)
        :: (broadcast (joinRoomFinish s socketId roomId name room isHost).state socketId
              roomId (Notification.newPeer socketId name isHost)
            ++ existingProducers
              { room with
                peers := mapSet room.peers socketId
                  { id := socketId, name := name, isHost := isHost, sendTransport := none,
                    recvTransport := none, producers := [], consumers := [] } }
              socketId) := by
  simp [joinRoomFinish, Room.addPeer, mapSet_mapSet_self]

theorem mem_existingProducers (room : Room) (socketId : Nat) (msg : Message) :
    msg ∈ existingProducers room socketId
      ↔ ∃ p ∈ mapValues room.peers, p.id ≠ socketId ∧ ∃ entry ∈ p.producers,
          msg = Message.emit socketId (Notification.newProducer entry.id p.id entry.kind) := by
  simp only [existingProducers, List.mem_flatMap]
  constructor
  · rintro ⟨p, hp, hmsg⟩
    by_cases hid : p.id = socketId
    · simp [hid] at hmsg
    · simp only [hid, if_false, List.mem_map] at hmsg
      obtain ⟨entry, hentry, rfl⟩ := hmsg
      exact ⟨p, hp, hid, entry, hentry, rfl⟩
  · rintro ⟨p, hp, hid, entry, hentry, rfl⟩
    refine ⟨p, hp, ?_⟩
    simp only [hid, if_false, List.mem_map]
    exact ⟨entry, hentry, rfl⟩

theorem joinRoomFinish_announces (s : ServerState) (b roomId : Nat) (name : String)
    (room : Room) (isHost : Bool) (q : Nat) (pa : Peer) (entry : ProducerEntry)
    (hq : mapGet room.peers q = some pa) (hqb : q ≠ b) (hid : pa.id ≠ b)
    (hentry : entry ∈ pa.producers) :
    Message.emit b (Notification.newProducer entry.id pa.id entry.kind)
        ∈ (joinRoomFinish s b roomId name room isHost).sent
    ∧ ∃ info rtp peers,
        Message.reply b (Reply.joined rtp peers isHost)
          ∈ (joinRoomFinish s b roomId name room isHost).sent
        ∧ info ∈ peers ∧ info.id = pa.id
        ∧ (entry.kind = "video" → entry.id ∈ info.videoProducers)
        ∧ (entry.kind = "audio" → entry.id ∈ info.audioProducers) := by
  have hval : pa ∈ mapValues (mapSet room.peers b
      ({ id := b, name := name, isHost := isHost, sendTransport := none,
         recvTransport := none, producers := [], consumers := [] } : Peer)) := by
    apply mem_mapValues_of_mapGet _ q
    rw [mapGet_mapSet_ne _ _ _ _ hqb]
    exact hq
  rw [joinRoomFinish_sent_eq]
  constructor
  · apply List.mem_cons_of_mem
    apply List.mem_append_right
    rw [mem_existingProducers]
    exact ⟨pa, hval, hid, entry, hentry, rfl⟩
  · refine ⟨{ id := pa.id, name := pa.name, isHost := pa.isHost,
              videoProducers :=
                (pa.producers.filter fun prod => prod.kind == "video").map (·.id),
              audioProducers :=
                (pa.producers.filter fun prod => prod.kind == "audio").map (·.id) },
      _, _, List.mem_cons_self _ _, ?_, rfl, ?_, ?_⟩
    · simp only [Room.getPeerList, List.mem_map]
      exact ⟨pa, hval, rfl⟩
    · intro hk
      simp only [List.mem_map, List.mem_filter]
      exact ⟨entry, ⟨hentry, by simp [hk]⟩, rfl⟩
    · intro hk
      simp only [List.mem_map, List.mem_filter]
      exact ⟨entry, ⟨hentry, by simp [hk]⟩, rfl⟩

theorem producersKept_refl (room : Room) : ProducersKept room room :=
  fun _ p _ hp hentry => ⟨p, hp, hentry⟩

theorem producersKept_mapSet (room : Room) (k : Nat) (p p' : Peer)
    (hk : mapGet room.peers k = some p)
    (hsub : ∀ entry ∈ p.producers, entry ∈ p'.producers) :
    ProducersKept room { room with peers := mapSet room.peers k p' } := by
  intro q x entry hx hentry
  simp only [mapGet_mapSet]
  by_cases hq : q = k
  · rw [hq, hk] at hx
    cases hx
    exact ⟨p', by simp [hq], hsub entry hentry⟩
  · exact ⟨x, by simp [hq, hx], hentry⟩

theorem createSendTransport_producersKept (eng : Engine) (log : List EngineCall)
    (room : Room) (peerId : Nat) :
    ProducersKept room (room.createSendTransport eng log peerId).room := by
  unfold Room.createSendTransport
  split
  · exact producersKept_refl room
  · split
    · exact producersKept_refl room
    · next peer hpeer =>
      exact producersKept_mapSet room peerId peer _ hpeer fun _ h => h

theorem createRecvTransport_producersKept (eng : Engine) (log : List EngineCall)
    (room : Room) (peerId : Nat) :
    ProducersKept room (room.createRecvTransport eng log peerId).room := by
  unfold Room.createRecvTransport
  split
  · exact producersKept_refl room
  · split
    · exact producersKept_refl room
    · next peer hpeer =>
      exact producersKept_mapSet room peerId peer _ hpeer fun _ h => h

theorem connectSendTransport_producersKept (eng : Engine) (log : List EngineCall)
    (room : Room) (peerId dtls : Nat) :
    ProducersKept room (room.connectSendTransport eng log peerId dtls).room := by
  unfold Room.connectSendTransport
  split
  · exact producersKept_refl room
  · split <;> exact producersKept_refl room

theorem connectRecvTransport_producersKept (eng : Engine) (log : List EngineCall)
    (room : Room) (peerId dtls : Nat) :
    ProducersKept room (room.connectRecvTransport eng log peerId dtls).room := by
  unfold Room.connectRecvTransport
  split
  · exact producersKept_refl room
  · split <;> exact producersKept_refl room

theorem produce_producersKept (eng : Engine) (log : List EngineCall) (room : Room)
    (peerId : Nat) (kind : String) (rtp : Nat) :
    ProducersKept room (room.produce eng log peerId kind rtp).room := by
  unfold Room.produce
  split
  · exact producersKept_refl room
  · next peer hpeer =>
    split
    · exact producersKept_refl room
    · simp only
      split
      · exact producersKept_refl room
      · exact producersKept_mapSet room peerId peer _ hpeer
          fun _ h => List.mem_append_left _ h

theorem consume_producersKept (eng : Engine) (log : List EngineCall) (room : Room)
    (peerId producerId caps : Nat) :
    ProducersKept room (room.consume eng log peerId producerId caps).room := by
  unfold Room.consume
  split
  · exact producersKept_refl room
  · next peer hpeer =>
    split
    · exact producersKept_refl room
    · simp only
      split
      · exact producersKept_refl room
      · exact producersKept_mapSet room peerId peer _ hpeer fun _ h => h

theorem resumeConsumer_producersKept (eng : Engine) (log : List EngineCall) (room : Room)
    (peerId consumerId : Nat) :
    ProducersKept room (room.resumeConsumer eng log peerId consumerId).room := by
  unfold Room.resumeConsumer
  split
  · exact producersKept_refl room
  · split <;> exact producersKept_refl room

theorem holdsProducer_writeBack {β : Type} (s : ServerState) (roomId : Nat) (room : Room)
    (r : MethodResult β) (R a : Nat) (entry : ProducerEntry)
    (h : HoldsProducer s R a entry) (hroom : getRoom s roomId = some room)
    (hkept : ProducersKept room r.room) :
    HoldsProducer (writeBack s roomId r) R a entry := by
  obtain ⟨room0, p, hroom0, hp, hentry⟩ := h
  by_cases hR : R = roomId
  · subst hR
    rw [hroom] at hroom0
    cases hroom0
    obtain ⟨p', hp', hentry'⟩ := hkept a p entry hp hentry
    exact ⟨r.room, p', by simp [getRoom_writeBack], hp', hentry'⟩
  · exact ⟨room0, p, by simp [getRoom_writeBack, hR, hroom0], hp, hentry⟩

theorem holdsProducer_joinRoomFinish (s : ServerState) (b roomId : Nat) (name : String)
    (room : Room) (isHost : Bool) (R a : Nat) (entry : ProducerEntry)
    (h : HoldsProducer s R a entry) (hroom : getRoom s roomId = some room)
    (hne : roomId = R → b ≠ a) :
    HoldsProducer (joinRoomFinish s b roomId name room isHost).state R a entry := by
  obtain ⟨room0, p, hroom0, hp, hentry⟩ := h
  rw [joinRoomFinish_state]
  unfold HoldsProducer
  simp only [getRoom_socketJoin]
  simp only [getRoom, mapGet_mapSet]
  by_cases hR : R = roomId
  · subst hR
    rw [hroom] at hroom0
    cases hroom0
    have hab : a ≠ b := fun hab => hne rfl hab.symm
    refine ⟨{ room with
        peers := mapSet room.peers b
          { id := b, name := name, isHost := isHost, sendTransport := none,
            recvTransport := none, producers := [], consumers := [] } },
      p, by simp, ?_, hentry⟩
    simp only [mapGet_mapSet]
    simp [hab, hp]
  · exact ⟨room0, p, by simpa [hR, getRoom] using hroom0, hp, hentry⟩

theorem holdsProducer_handle (eng : Engine) (s : ServerState) (req : Request)
    (R a : Nat) (entry : ProducerEntry) (h : HoldsProducer s R a entry)
    (hreq : ∀ name, req ≠ Request.joinRoom a R name) :
    HoldsProducer (handle eng s req).state R a entry := by
  cases req with
  | joinRoom socketId roomId name =>
    have hne : roomId = R → socketId ≠ a := by
      intro hR ha
      exact hreq name (by rw [hR, ha])
    rcases joinRoom_cases eng s socketId roomId name with
      ⟨room, hroom, heq⟩ | ⟨e, -, -, heq⟩ | ⟨router, hnone, -, heq⟩
    · simp only [handle, heq]
      exact holdsProducer_joinRoomFinish _ _ _ _ _ _ _ _ _ h hroom hne
    · simp only [handle, heq]
      exact h
    · simp only [handle, heq]
      apply holdsProducer_joinRoomFinish
      · obtain ⟨room0, p, hroom0, hp, hentry⟩ := h
        have hR : R ≠ roomId := by
          intro hR
          rw [hR, hnone] at hroom0
          cases hroom0
        exact ⟨room0, p, by simpa [getRoom, mapGet_mapSet, hR] using hroom0, hp, hentry⟩
      · simp [getRoom, mapGet_mapSet_self]
      · exact hne
  | createSendTransport socketId roomId =>
    simp only [handle, createSendTransport]
    split
    · exact h
    · next room hroom =>
      split <;> exact holdsProducer_writeBack _ _ _ _ _ _ _ h hroom
        (createSendTransport_producersKept _ _ _ _)
  | connectSendTransport socketId roomId dtls =>
    simp only [handle, connectSendTransport]
    split
    · exact h
    · next room hroom =>
      split <;> exact holdsProducer_writeBack _ _ _ _ _ _ _ h hroom
        (connectSendTransport_producersKept _ _ _ _ _)
  | produce socketId roomId kind rtp =>
    simp only [handle, produce]
    split
    · exact h
    · next room hroom =>
      split <;> exact holdsProducer_writeBack _ _ _ _ _ _ _ h hroom
        (produce_producersKept _ _ _ _ _ _)
  | createRecvTransport socketId roomId =>
    simp only [handle, createRecvTransport]
    split
    · exact h
    · next room hroom =>
      split <;> exact holdsProducer_writeBack _ _ _ _ _ _ _ h hroom
        (createRecvTransport_producersKept _ _ _ _)
  | connectRecvTransport socketId roomId dtls =>
    simp only [handle, connectRecvTransport]
    split
    · exact h
    · next room hroom =>
      split <;> exact holdsProducer_writeBack _ _ _ _ _ _ _ h hroom
        (connectRecvTransport_producersKept _ _ _ _ _)
  | consume socketId roomId producerId caps =>
    simp only [handle, consume]
    split
    · exact h
    · next room hroom =>
      split
      · split <;> exact holdsProducer_writeBack _ _ _ _ _ _ _ h hroom
          (consume_producersKept _ _ _ _ _ _)
      · exact h
  | resumeConsumer socketId roomId consumerId =>
    simp only [handle, resumeConsumer]
    split
    · exact h
    · next room hroom =>
      split <;> exact holdsProducer_writeBack _ _ _ _ _ _ _ h hroom
        (resumeConsumer_producersKept _ _ _ _ _)

theorem holdsProducer_run (eng : Engine) (later : List Request) (s : ServerState)
    (R a : Nat) (entry : ProducerEntry) (h : HoldsProducer s R a entry)
    (hlater : ∀ name, Request.joinRoom a R name ∉ later) :
    HoldsProducer (run eng s later) R a entry := by
  induction later generalizing s with
  | nil => exact h
  | cons req rest ih =>
    apply ih
    · apply holdsProducer_handle eng s req R a entry h
      intro name hreq
      exact hlater name (by rw [hreq]; exact List.mem_cons_self _ _)
    · intro name hmem
      exact hlater name (List.mem_cons_of_mem _ hmem)

theorem holdsProducer_of_produce (eng : Engine) (s : ServerState) (a roomId : Nat)
    (kind : String) (rtp producerId : Nat)
    (hok : Message.reply a (Reply.produced producerId)
            ∈ (produce eng s a roomId kind rtp).sent) :
    HoldsProducer (produce eng s a roomId kind rtp).state roomId a
      { id := producerId, kind := kind } := by
  unfold produce at hok ⊢
  cases hroom : getRoom s roomId with
  | none => simp [hroom, roomNotFound] at hok
  | some room =>
    simp only [hroom] at hok ⊢
    cases hval : (Room.produce eng s.log room a kind rtp).value with
    | error e => simp [hval] at hok
    | ok pid =>
      simp only [hval] at hok ⊢
      have hpid : pid = producerId := by
        rcases List.mem_append.1 hok with h | h
        · rw [mem_broadcast] at h
          obtain ⟨b, -, -, hb⟩ := h
          cases hb
        · simp only [List.mem_singleton, Message.reply.injEq, Reply.produced.injEq,
            true_and] at h
          exact h.symm
      subst hpid
      refine ⟨(Room.produce eng s.log room a kind rtp).room, ?_⟩
      simp only [getRoom_writeBack, if_true, true_and]
      unfold Room.produce at hval ⊢
      cases hpeer : mapGet room.peers a with
      | none => simp [hpeer] at hval
      | some peer =>
        simp only [hpeer] at hval ⊢
        cases hslot : peer.sendTransport with
        | none => simp [hslot] at hval
        | some transport =>
          simp only [hslot] at hval ⊢
          cases heng : eng.produce s.log transport kind rtp with
          | error e => simp [heng] at hval
          | ok pid' =>
            simp only [heng, Except.ok.injEq] at hval ⊢
            subst hval
            exact ⟨_, mapGet_mapSet_self _ _ _, by simp⟩

/-- C8 (as stated, refuted): peer 1 publishes in room 10 and is answered with
producer id 2.  Peer 2 joining afterwards is told about producer 2 through
both channels, the roster of its joinRoom reply and a newProducer
notification.  And when peer 1 has sent joinRoom for room 10 once more before
peer 2 joins, peer 2 is told about producer 2 through neither: the roster lists
no producer and no newProducer notification is sent. -/
theorem late_joiner_told_twice_example :
    (produce demoEngine
        (run demoEngine ServerState.init [.joinRoom 1 10 "A", .createSendTransport 1 10])
        1 10 "video" 5).sent = [Message.reply 1 (Reply.produced 2)]
    ∧ Message.reply 2 (Reply.joined 7
        [{ id := 1, name := "A", isHost := true, videoProducers := [2],
           audioProducers := [] },
         { id := 2, name := "B", isHost := false, videoProducers := [],
           audioProducers := [] }] false)
        ∈ (joinRoom demoEngine statePublished 2 10 "B").sent
    ∧ Message.emit 2 (Notification.newProducer 2 1 "video")
        ∈ (joinRoom demoEngine statePublished 2 10 "B").sent
    ∧ (joinRoom demoEngine (run demoEngine statePublished [.joinRoom 1 10 "A"])
        2 10 "B").sent
      = [Message.reply 2 (Reply.joined 7
          [{ id := 1, name := "A", isHost := false, videoProducers := [],
             audioProducers := [] },
           { id := 2, name := "B", isHost := false, videoProducers := [],
             audioProducers := [] }] false),
         Message.emit 1 (Notification.newPeer 2 "B" false)] := by
  decide

/-- C8 (amended): in every state reached from the empty registry, let a produce
request of peer A for room R be answered with producer id p, and let B be
another peer.  If B is a peer of R when the produce is handled, the produce
handler sends B a newProducer notification for p and no roster.  If B joins R
afterwards, after any further requests among which A sends no joinRoom for R
again, B's joinRoom handler sends B a newProducer notification for p and, when
the kind is "video" or "audio", the roster of B's joinRoom reply lists p under
A as well: such a later joiner is told through both channels. -/
theorem producer_announced (eng : Engine) (reqs later : List Request) (a b roomId : Nat)
    (kind : String) (rtp producerId : Nat) (hab : b ≠ a)
    (hok : Message.reply a (Reply.produced producerId)
            ∈ (produce eng (run eng ServerState.init reqs) a roomId kind rtp).sent)
    (hlater : ∀ name, Request.joinRoom a roomId name ∉ later) :
    (∀ room, getRoom (run eng ServerState.init reqs) roomId = some room →
      (mapGet room.peers b).isSome →
      Message.emit b (Notification.newProducer producerId a kind)
          ∈ (produce eng (run eng ServerState.init reqs) a roomId kind rtp).sent
      ∧ ∀ caps peers isHost, Message.reply b (Reply.joined caps peers isHost)
          ∉ (produce eng (run eng ServerState.init reqs) a roomId kind rtp).sent)
    ∧ (∀ name,
      Message.emit b (Notification.newProducer producerId a kind)
          ∈ (joinRoom eng
              (run eng (produce eng (run eng ServerState.init reqs) a roomId kind rtp).state
                later)
              b roomId name).sent
      ∧ ∃ info caps peers,
          Message.reply b (Reply.joined caps peers false)
            ∈ (joinRoom eng
                (run eng
                  (produce eng (run eng ServerState.init reqs) a roomId kind rtp).state
                  later)
                b roomId name).sent
          ∧ info ∈ peers ∧ info.id = a
          ∧ (kind = "video" → producerId ∈ info.videoProducers)
          ∧ (kind = "audio" → producerId ∈ info.audioProducers)) := by
  have hcons := consistent_run eng reqs ServerState.init consistent_init
  constructor
  · intro room hroom hb
    rw [produce_sent_of_reply eng _ a roomId kind rtp producerId hok]
    constructor
    · apply List.mem_append_left
      rw [mem_broadcast]
      obtain ⟨pb, hpb⟩ := Option.isSome_iff_exists.1 hb
      exact ⟨b, (hcons roomId room hroom b pb hpb).2, hab, rfl⟩
    · intro caps peers isHost hmem
      rcases List.mem_append.1 hmem with h | h
      · rw [mem_broadcast] at h
        obtain ⟨c, -, -, hc⟩ := h
        cases hc
      · simp at h
  · intro name
    have hcons1 : Consistent
        (produce eng (run eng ServerState.init reqs) a roomId kind rtp).state :=
      consistent_handle eng _ (Request.produce a roomId kind rtp) hcons
    have hcons2 := consistent_run eng later _ hcons1
    obtain ⟨room2, pa, hroom2, hpa, hentry⟩ :=
      holdsProducer_run eng later _ roomId a { id := producerId, kind := kind }
        (holdsProducer_of_produce eng _ a roomId kind rtp producerId hok) hlater
    have hid : pa.id = a := (hcons2 roomId room2 hroom2 a pa hpa).1
    have hjoin :
        joinRoom eng
            (run eng (produce eng (run eng ServerState.init reqs) a roomId kind rtp).state
              later)
            b roomId name
          = joinRoomFinish
              (run eng (produce eng (run eng ServerState.init reqs) a roomId kind rtp).state
                later)
              b roomId name room2 false := by
      rcases joinRoom_cases eng
          (run eng (produce eng (run eng ServerState.init reqs) a roomId kind rtp).state
            later)
          b roomId name with
        ⟨room', hroom', heq⟩ | ⟨e, hnone, -, -⟩ | ⟨router, hnone, -, -⟩
      · rw [hroom2] at hroom'
        cases hroom'
        exact heq
      · rw [hroom2] at hnone
        cases hnone
      · rw [hroom2] at hnone
        cases hnone
    rw [hjoin]
    have h := joinRoomFinish_announces
      (run eng (produce eng (run eng ServerState.init reqs) a roomId kind rtp).state later)
      b roomId name room2 false a pa { id := producerId, kind := kind } hpa (Ne.symm hab)
      (by rw [hid]; exact Ne.symm hab) hentry
    rw [hid] at h
    exact h

/-- C8 (amended), at a concrete input: peer 1 publishes video producer 2 in
room 10, peer 3 joins, then peer 2 joins. -/
theorem producer_announced_witness :
    Message.emit 2 (Notification.newProducer 2 1 "video")
        ∈ (joinRoom demoEngine
            (run demoEngine
              (produce demoEngine
                (run demoEngine ServerState.init
                  [.joinRoom 1 10 "A", .createSendTransport 1 10])
                1 10 "video" 5).state
              [.joinRoom 3 10 "C"])
            2 10 "B").sent
    ∧ ∃ info caps peers,
        Message.reply 2 (Reply.joined caps peers false)
          ∈ (joinRoom demoEngine
              (run demoEngine
                (produce demoEngine
                  (run demoEngine ServerState.init
                    [.joinRoom 1 10 "A", .createSendTransport 1 10])
                  1 10 "video" 5).state
                [.joinRoom 3 10 "C"])
              2 10 "B").sent
        ∧ info ∈ peers ∧ info.id = 1
        ∧ ("video" = "video" → 2 ∈ info.videoProducers)
        ∧ ("video" = "audio" → 2 ∈ info.audioProducers) :=
  (producer_announced demoEngine [.joinRoom 1 10 "A", .createSendTransport 1 10]
      [.joinRoom 3 10 "C"] 1 2 10 "video" 5 2 (by decide) (by decide)
      (by intro name h; simp at h)).2 "B"

/-- C9: in every state reached from the empty registry, when a produce request
of peer A for room R is answered with a producer id, the handler sends a
newProducer notification carrying that id, peerId = A and the kind to every
other peer of R, and sends no notification to A itself. -/
theorem produce_notifies_others (eng : Engine) (reqs : List Request) (a roomId : Nat)
    (kind : String) (rtp producerId : Nat) (room : Room)
    (hroom : getRoom (run eng ServerState.init reqs) roomId = some room)
    (hok : Message.reply a (Reply.produced producerId)
            ∈ (produce eng (run eng ServerState.init reqs) a roomId kind rtp).sent) :
    (∀ b, (mapGet room.peers b).isSome → b ≠ a →
      Message.emit b (Notification.newProducer producerId a kind)
        ∈ (produce eng (run eng ServerState.init reqs) a roomId kind rtp).sent)
    ∧ (∀ event, Message.emit a event
        ∉ (produce eng (run eng ServerState.init reqs) a roomId kind rtp).sent) := by
  have hcons := consistent_run eng reqs ServerState.init consistent_init
  rw [produce_sent_of_reply eng _ a roomId kind rtp producerId hok]
  constructor
  · intro b hb hne
    apply List.mem_append_left
    rw [mem_broadcast]
    obtain ⟨pb, hpb⟩ := Option.isSome_iff_exists.1 hb
    exact ⟨b, (hcons roomId room hroom b pb hpb).2, hne, rfl⟩
  · intro event hmem
    rcases List.mem_append.1 hmem with h | h
    · rw [mem_broadcast] at h
      obtain ⟨c, -, hne, hc⟩ := h
      cases hc
      exact hne rfl
    · simp at h

/-- C9, at a concrete input: peers 1 and 2 are in room 10 and peer 1
publishes a video track. -/
theorem produce_notifies_others_witness :
    Message.emit 2 (Notification.newProducer 2 1 "video")
        ∈ (produce demoEngine stateTwoPeers 1 10 "video" 5).sent
    ∧ ∀ event, Message.emit 1 event
        ∉ (produce demoEngine stateTwoPeers 1 10 "video" 5).sent :=
  have h := produce_notifies_others demoEngine
    [.joinRoom 1 10 "A", .joinRoom 2 10 "B", .createSendTransport 1 10]
    1 10 "video" 5 2 _ rfl (by decide)
  ⟨h.1 2 (by decide) (by decide), h.2⟩

/-- C10 (as stated, refuted): peer 1 holds video producer 2 in room 10 when
peer 2 joins; after the join is handled peer 2 has no consumer and the engine
was asked nothing. -/
theorem join_creates_no_consumer_example :
    ((getRoom statePublished 10).bind fun room => mapGet room.peers 1).map
        (fun peer => peer.producers) = some [{ id := 2, kind := "video" }]
    ∧ ((getRoom (joinRoom demoEngine statePublished 2 10 "B").state 10).bind
        fun room => mapGet room.peers 2).map (fun peer => peer.consumers) = some []
    ∧ (joinRoom demoEngine statePublished 2 10 "B").state.log = statePublished.log := by
  decide

theorem consume_of_reply (eng : Engine) (s : ServerState)
    (b roomId producerId caps id replied : Nat) (kind : String) (rtp : Nat)
    (hok : Message.reply b (Reply.consumed id replied kind rtp)
            ∈ (consume eng s b roomId producerId caps).sent) :
    ∃ room peer consumer, getRoom s roomId = some room
      ∧ mapGet room.peers b = some peer ∧ consumer.id = id
      ∧ (consume eng s b roomId producerId caps).state.rooms
          = mapSet s.rooms roomId
              { room with
                peers := mapSet room.peers b
                  { peer with consumers := peer.consumers ++ [consumer] } } := by
  cases hroom : getRoom s roomId with
  | none => simp [consume, hroom, roomNotFound] at hok
  | some room =>
    cases hcan : eng.canConsume s.log room.router producerId caps with
    | false => simp [consume, hroom, hcan] at hok
    | true =>
      cases hpeer : mapGet room.peers b with
      | none => simp [consume, hroom, hcan, Room.consume, hpeer] at hok
      | some peer =>
        cases hslot : peer.recvTransport with
        | none => simp [consume, hroom, hcan, Room.consume, hpeer, hslot] at hok
        | some transport =>
          cases heng : eng.consume s.log transport producerId caps with
          | error e =>
            simp [consume, hroom, hcan, Room.consume, hpeer, hslot, heng] at hok
          | ok consumer =>
            simp only [consume, hroom, hcan, Room.consume, hpeer, hslot, heng, if_true,
              List.mem_singleton, Message.reply.injEq, Reply.consumed.injEq,
              true_and] at hok
            refine ⟨room, peer, consumer, rfl, hpeer, hok.1.symm, ?_⟩
            simp [consume, hroom, hcan, Room.consume, hpeer, hslot, heng, writeBack]

theorem resumeConsumer_log_of_member (eng : Engine) (s : ServerState)
    (b roomId id : Nat) (room : Room) (peer : Peer) (consumer : Consumer)
    (hroom : getRoom s roomId = some room) (hpeer : mapGet room.peers b = some peer)
    (hmem : consumer ∈ peer.consumers) (hid : consumer.id = id) :
    (resumeConsumer eng s b roomId id).state.log = s.log ++ [EngineCall.resume id] := by
  have hsome : (peer.consumers.find? fun c => c.id == id).isSome := by
    rw [List.find?_isSome]
    exact ⟨consumer, hmem, by simp [hid]⟩
  obtain ⟨c, hc⟩ := Option.isSome_iff_exists.1 hsome
  have hcid : c.id = id := by
    have := List.find?_some hc
    simpa using this
  cases hres : eng.resume s.log c <;>
    simp [resumeConsumer, hroom, Room.resumeConsumer, hpeer, hc, writeBack, hres, hcid]

/-- C10 (amended): when peer B joins an existing room the coordinator creates
no consumer.  The handler asks the engine nothing, stores a fresh peer object
for B (no transport, no producer, no consumer) and leaves every other peer
unchanged; it sends, in this order, the reply with the roster, a newPeer
notification to every other socket of the room, and to B exactly one
newProducer notification per producer of each peer whose id is not B's, in the
order of the peer map and of the producers lists.  The consume+resume cycle is
driven by B's client: from the roster of the reply it issues exactly one
consume request per id listed under videoProducers and then audioProducers of
each entry, that is one per video or audio producer of each peer of the room;
a consume request that is answered with a consumer has put a consumer with
the answered id on B's list, and the resumeConsumer request the client sends
for that answer makes the coordinator ask the engine to resume the consumer
with that id. -/
theorem joinRoom_catch_up (eng : Engine) (s : ServerState) (b roomId : Nat)
    (name : String) (caps : Nat) (room joined : Room)
    (hroom : getRoom s roomId = some room)
    (hjoined : joined
      = { room with
          peers := mapSet room.peers b
            { id := b, name := name, isHost := false, sendTransport := none,
              recvTransport := none, producers := [], consumers := [] } }) :
    joinRoom eng s b roomId name
      = { state := socketJoin { s with rooms := mapSet s.rooms roomId joined } b roomId,
          sent :=
            Message.reply b (Reply.joined room.router.rtpCapabilities joined.getPeerList false)
              :: (broadcast
                    (socketJoin { s with rooms := mapSet s.rooms roomId joined } b roomId)
                    b roomId (Notification.newPeer b name false)
                  ++ (mapValues joined.peers).flatMap fun p =>
                      if p.id = b then []
                      else p.producers.map fun prod =>
                        Message.emit b (Notification.newProducer prod.id p.id prod.kind)),
          thrown := none }
    ∧ (joinRoom eng s b roomId name).state.log = s.log
    ∧ getRoom (joinRoom eng s b roomId name).state roomId = some joined
    ∧ mapGet joined.peers b
        = some { id := b, name := name, isHost := false, sendTransport := none,
                 recvTransport := none, producers := [], consumers := [] }
    ∧ (∀ q, q ≠ b → mapGet joined.peers q = mapGet room.peers q)
    ∧ consumeExisting b roomId caps joined.getPeerList
        = ((mapValues joined.peers).flatMap fun p =>
            ((p.producers.filter fun prod => decide (prod.kind = "video")).map (·.id)
              ++ (p.producers.filter fun prod => decide (prod.kind = "audio")).map (·.id)).map
              fun prodId => Request.consume b roomId prodId caps)
    ∧ (∀ st producerId id replied kind rtp,
        Message.reply b (Reply.consumed id replied kind rtp)
          ∈ (consume eng st b roomId producerId caps).sent →
        (∃ room2 peer2 consumer,
          getRoom (consume eng st b roomId producerId caps).state roomId = some room2
          ∧ mapGet room2.peers b = some peer2 ∧ consumer ∈ peer2.consumers
          ∧ consumer.id = id)
        ∧ (run eng (consume eng st b roomId producerId caps).state
              (resumeAfterConsume b roomId (Reply.consumed id replied kind rtp))).log
            = (consume eng st b roomId producerId caps).state.log
                ++ [EngineCall.resume id]) := by
  have hjoin : joinRoom eng s b roomId name
      = joinRoomFinish s b roomId name room false := by
    rcases joinRoom_cases eng s b roomId name with
      ⟨room', hroom', heq⟩ | ⟨e, hnone, -, -⟩ | ⟨router, hnone, -, -⟩
    · rw [hroom] at hroom'
      cases hroom'
      exact heq
    · rw [hroom] at hnone
      cases hnone
    · rw [hroom] at hnone
      cases hnone
  have hout : joinRoom eng s b roomId name
      = { state := socketJoin { s with rooms := mapSet s.rooms roomId joined } b roomId,
          sent :=
            Message.reply b (Reply.joined room.router.rtpCapabilities joined.getPeerList false)
              :: (broadcast
                    (socketJoin { s with rooms := mapSet s.rooms roomId joined } b roomId)
                    b roomId (Notification.newPeer b name false)
                  ++ (mapValues joined.peers).flatMap fun p =>
                      if p.id = b then []
                      else p.producers.map fun prod =>
                        Message.emit b (Notification.newProducer prod.id p.id prod.kind)),
          thrown := none } := by
    rw [hjoin, hjoined]
    simp [joinRoomFinish, Room.addPeer, mapSet_mapSet_self, existingProducers]
  refine ⟨hout, ?_, ?_, ?_, ?_, ?_, ?_⟩
  · rw [hout]
    simp only
    unfold socketJoin
    split <;> rfl
  · rw [hout]
    simp only
    rw [getRoom_socketJoin]
    exact mapGet_mapSet_self s.rooms roomId joined
  · rw [hjoined]
    exact mapGet_mapSet_self room.peers b _
  · intro q hq
    rw [hjoined]
    exact mapGet_mapSet_ne _ _ _ _ hq
  · unfold consumeExisting Room.getPeerList
    generalize mapValues joined.peers = values
    induction values with
    | nil => rfl
    | cons p rest ih =>
      simp only [List.map_cons, List.flatMap_cons, ih]
      congr 1
  · intro st producerId id replied kind rtp hok
    obtain ⟨room1, peer1, consumer, hroom1, hpeer1, hid, hrooms⟩ :=
      consume_of_reply eng st b roomId producerId caps id replied kind rtp hok
    have hget : getRoom (consume eng st b roomId producerId caps).state roomId
        = some { room1 with
            peers := mapSet room1.peers b
              { peer1 with consumers := peer1.consumers ++ [consumer] } } := by
      unfold getRoom
      rw [hrooms]
      exact mapGet_mapSet_self _ _ _
    have hmem : consumer ∈ peer1.consumers ++ [consumer] :=
      List.mem_append_right _ (List.mem_singleton.2 rfl)
    refine ⟨⟨_, _, consumer, hget, mapGet_mapSet_self _ _ _, hmem, hid⟩, ?_⟩
    simp only [resumeAfterConsume, run, handle]
    exact resumeConsumer_log_of_member eng _ b roomId id _ _ consumer hget
      (mapGet_mapSet_self _ _ _) hmem hid

/-- C10 (amended), at a concrete input: peer 2 joins room 10, where peer 1
holds video producer 2; its client then asks to consume producer 2. -/
theorem joinRoom_catch_up_witness :
    (joinRoom demoEngine statePublished 2 10 "B").sent
      = [Message.reply 2 (Reply.joined 7
          [{ id := 1, name := "A", isHost := true, videoProducers := [2],
             audioProducers := [] },
           { id := 2, name := "B", isHost := false, videoProducers := [],
             audioProducers := [] }] false),
         Message.emit 1 (Notification.newPeer 2 "B" false),
         Message.emit 2 (Notification.newProducer 2 1 "video")]
    ∧ consumeExisting 2 10 9
        [{ id := 1, name := "A", isHost := true, videoProducers := [2],
           audioProducers := [] },
         { id := 2, name := "B", isHost := false, videoProducers := [],
           audioProducers := [] }]
      = [Request.consume 2 10 2 9] :=
  have h := joinRoom_catch_up demoEngine statePublished 2 10 "B" 9 roomPublished _
    (by decide) rfl
  ⟨by rw [h.1]; rfl, h.2.2.2.2.2.1.trans rfl⟩

/-! ## Admission and roster -/

/-- C11 (as stated, refuted): peer 1 of room 10 holds a send transport and a
video producer; addPeer with its id returns a new peer object instead of
failing, and the peer stored under id 1 is no longer the one stored before. -/
theorem addPeer_existing_example :
    mapGet roomPublished.peers 1 = some peerPublished
    ∧ (roomPublished.addPeer 1 "A").2
        = { id := 1, name := "A", isHost := false, sendTransport := none,
            recvTransport := none, producers := [], consumers := [] }
    ∧ mapGet (roomPublished.addPeer 1 "A").1.peers 1
        = some { id := 1, name := "A", isHost := false, sendTransport := none,
                 recvTransport := none, producers := [], consumers := [] }
    ∧ peerPublished.producers = [{ id := 2, kind := "video" }] := by
  decide

/-- C11 (amended): addPeer(peerId, name) never fails: it returns a fresh Peer
(the given id and name, isHost false, no transport, no producer, no consumer)
and stores it under peerId; a Peer already stored under peerId is replaced by
it at the same place of the map, every other peer is unchanged, and so are the
room's id and router. -/
theorem addPeer_replaces (room : Room) (id : Nat) (name : String) :
    (room.addPeer id name).2
        = { id := id, name := name, isHost := false, sendTransport := none,
            recvTransport := none, producers := [], consumers := [] }
    ∧ mapGet (room.addPeer id name).1.peers id = some (room.addPeer id name).2
    ∧ (∀ q, q ≠ id → mapGet (room.addPeer id name).1.peers q = mapGet room.peers q)
    ∧ ((mapGet room.peers id).isSome →
        (room.addPeer id name).1.peers.map Prod.fst = room.peers.map Prod.fst)
    ∧ (room.addPeer id name).1.id = room.id
    ∧ (room.addPeer id name).1.router = room.router := by
  refine ⟨rfl, mapGet_mapSet_self _ _ _, fun q hq => mapGet_mapSet_ne _ _ _ _ hq, ?_,
    rfl, rfl⟩
  intro hsome
  obtain ⟨old, hold⟩ := Option.isSome_iff_exists.1 hsome
  exact mapSet_keys_of_mapGet _ _ _ _ hold

/-- C12: getPeerList returns, in the order of the peer map, exactly one entry
per peer with that peer's id, name and isHost; its videoProducers are the ids
of the peer's producers of kind "video" and its audioProducers the ids of
those of kind "audio", each in the order the producers were appended (a
sublist of the producer ids, an id being listed exactly when a producer of
that kind carries it); when every producer of the peer is of kind audio or
video the two lists together are a rearrangement of the peer's producer ids. -/
theorem getPeerList_entries (room : Room) :
    List.Forall₂
      (fun (p : Peer) (info : PeerInfo) =>
        info.id = p.id ∧ info.name = p.name ∧ info.isHost = p.isHost
        ∧ info.videoProducers.Sublist (p.producers.map (·.id))
        ∧ info.audioProducers.Sublist (p.producers.map (·.id))
        ∧ info.videoProducers
            = (p.producers.filter fun prod => decide (prod.kind = "video")).map (·.id)
        ∧ info.audioProducers
            = (p.producers.filter fun prod => decide (prod.kind = "audio")).map (·.id)
        ∧ ((∀ prod ∈ p.producers, prod.kind = "audio" ∨ prod.kind = "video") →
            (info.videoProducers ++ info.audioProducers).Perm (p.producers.map (·.id))))
      (mapValues room.peers) room.getPeerList := by
  unfold Room.getPeerList
  rw [List.forall₂_map_right_iff]
  apply List.forall₂_same.2
  intro p _
  refine ⟨rfl, rfl, rfl, ?_, ?_, ?_, ?_, ?_⟩
  · exact List.Sublist.map _ (List.filter_sublist _)
  · exact List.Sublist.map _ (List.filter_sublist _)
  · congr 1
  · congr 1
  · intro hkinds
    have haudio : (p.producers.filter fun prod => prod.kind == "audio")
        = p.producers.filter fun prod => !(prod.kind == "video") := by
      apply List.filter_congr
      intro prod hprod
      rcases hkinds prod hprod with h | h
      · simp [h]
      · simp [h]
    simp only [haudio]
    rw [← List.map_append]
    exact List.Perm.map _ (List.filter_append_perm _ _)

/-! ## Requests for a room that is not registered -/

/-- C13 (as stated, refuted): room 10 is not registered; the
connectSendTransport, connectRecvTransport and resumeConsumer handlers send
nothing, so no error reaches the requesting client. -/
theorem unknown_room_silent_example :
    getRoom ServerState.init 10 = none
    ∧ (connectSendTransport demoEngine ServerState.init 1 10 3).sent = []
    ∧ (connectRecvTransport demoEngine ServerState.init 1 10 3).sent = []
    ∧ (resumeConsumer demoEngine ServerState.init 1 10 4).sent = [] := by
  decide

/-- C13 (amended): for a roomId that is not in the room registry, the
createSendTransport, produce, createRecvTransport and consume handlers send
the single reply "Room not found" to the requesting client, while the
connectSendTransport, connectRecvTransport and resumeConsumer handlers, which
have no reply channel, send nothing; in all seven cases nothing escapes the
handler, the state is unchanged and no other client is sent anything. -/
theorem unknown_room (eng : Engine) (s : ServerState) (socketId roomId : Nat)
    (hnone : getRoom s roomId = none) :
    (createSendTransport eng s socketId roomId
        = { state := s, sent := [Message.reply socketId (Reply.error "Room not found")],
            thrown := none })
    ∧ (∀ kind rtp, produce eng s socketId roomId kind rtp
        = { state := s, sent := [Message.reply socketId (Reply.error "Room not found")],
            thrown := none })
    ∧ (createRecvTransport eng s socketId roomId
        = { state := s, sent := [Message.reply socketId (Reply.error "Room not found")],
            thrown := none })
    ∧ (∀ producerId caps, consume eng s socketId roomId producerId caps
        = { state := s, sent := [Message.reply socketId (Reply.error "Room not found")],
            thrown := none })
    ∧ (∀ dtls, connectSendTransport eng s socketId roomId dtls
        = { state := s, sent := [], thrown := none })
    ∧ (∀ dtls, connectRecvTransport eng s socketId roomId dtls
        = { state := s, sent := [], thrown := none })
    ∧ (∀ consumerId, resumeConsumer eng s socketId roomId consumerId
        = { state := s, sent := [], thrown := none }) := by
  refine ⟨?_, ?_, ?_, ?_, ?_, ?_, ?_⟩
  · simp [createSendTransport, hnone, roomNotFound]
  · intro kind rtp
    simp [produce, hnone, roomNotFound]
  · simp [createRecvTransport, hnone, roomNotFound]
  · intro producerId caps
    simp [consume, hnone, roomNotFound]
  · intro dtls
    simp [connectSendTransport, hnone]
  · intro dtls
    simp [connectRecvTransport, hnone]
  · intro consumerId
    simp [resumeConsumer, hnone]

/-- C13 (amended), at a concrete input: peer 2 addresses room 11 while only
room 10 is registered. -/
theorem unknown_room_witness :
    produce demoEngine statePublished 2 11 "audio" 5
        = { state := statePublished,
            sent := [Message.reply 2 (Reply.error "Room not found")], thrown := none }
    ∧ resumeConsumer demoEngine statePublished 2 11 4
        = { state := statePublished, sent := [], thrown := none } :=
  have h := unknown_room demoEngine statePublished 2 11 (by decide)
  ⟨h.2.1 "audio" 5, h.2.2.2.2.2.2 4⟩

/-! ## The host flag -/

/-- C14 (evaluation at the failing input): connection 1 creates room 10 with
its first joinRoom and is its host; it sends joinRoom for room 10 again.  The
second request is answered with isHost = false, the peer stored under id 1 now
has isHost = false, and room 10 has no peer with isHost = true. -/
theorem rejoin_loses_host :
    ((getRoom (run demoEngine ServerState.init [.joinRoom 1 10 "A"]) 10).map
        fun room => room.peers.map fun entry => (entry.1, entry.2.isHost))
      = some [(1, true)]
    ∧ (joinRoom demoEngine (run demoEngine ServerState.init [.joinRoom 1 10 "A"])
        1 10 "A").sent
      = [Message.reply 1 (Reply.joined 7
          [{ id := 1, name := "A", isHost := false, videoProducers := [],
             audioProducers := [] }] false)]
    ∧ ((getRoom
          (run demoEngine ServerState.init [.joinRoom 1 10 "A", .joinRoom 1 10 "A"]) 10).map
        fun room => room.peers.map fun entry => (entry.1, entry.2.isHost))
      = some [(1, false)] := by
  decide

/-! ## Resuming a consumer -/

/-- C15: for a peer present in the room, resumeConsumer(peerId, consumerId)
asks the engine to resume a consumer only if a consumer with that id is in
that peer's own consumers list, and then it is that consumer; when the peer's
own list has no consumer with that id the handler resumes nothing, sends
nothing and leaves the state as it was, whatever the other peers hold.  In
either case the registry and the socket.io rooms are unchanged. -/
theorem resumeConsumer_own_only (eng : Engine) (s : ServerState)
    (socketId roomId consumerId : Nat) (room : Room) (peer : Peer)
    (hroom : getRoom s roomId = some room)
    (hpeer : mapGet room.peers socketId = some peer) :
    ((∀ c ∈ peer.consumers, c.id ≠ consumerId) →
      resumeConsumer eng s socketId roomId consumerId
        = { state := s, sent := [], thrown := none })
    ∧ (resumeConsumer eng s socketId roomId consumerId).state.rooms = s.rooms
    ∧ (resumeConsumer eng s socketId roomId consumerId).state.members = s.members
    ∧ (resumeConsumer eng s socketId roomId consumerId).sent = []
    ∧ ((resumeConsumer eng s socketId roomId consumerId).state.log = s.log
        ∨ ∃ c ∈ peer.consumers, c.id = consumerId
            ∧ (resumeConsumer eng s socketId roomId consumerId).state.log
                = s.log ++ [EngineCall.resume c.id]) := by
  have hrooms : mapSet s.rooms roomId room = s.rooms := mapSet_of_mapGet _ _ _ hroom
  cases hfind : peer.consumers.find? (fun c => c.id == consumerId) with
  | none =>
    have hout : resumeConsumer eng s socketId roomId consumerId
        = { state := s, sent := [], thrown := none } := by
      simp [resumeConsumer, hroom, Room.resumeConsumer, hpeer, hfind, writeBack, hrooms]
    rw [hout]
    exact ⟨fun _ => rfl, rfl, rfl, rfl, Or.inl rfl⟩
  | some c =>
    have hmem : c ∈ peer.consumers := List.mem_of_find?_eq_some hfind
    have hid : c.id = consumerId := by
      have := List.find?_some hfind
      simpa using this
    refine ⟨?_, ?_, ?_, ?_, ?_⟩
    · intro hnot
      exact absurd hid (hnot c hmem)
    · cases hres : eng.resume s.log c <;>
        simp [resumeConsumer, hroom, Room.resumeConsumer, hpeer, hfind, writeBack, hrooms,
          hres]
    · cases hres : eng.resume s.log c <;>
        simp [resumeConsumer, hroom, Room.resumeConsumer, hpeer, hfind, writeBack, hres]
    · cases hres : eng.resume s.log c <;>
        simp [resumeConsumer, hroom, Room.resumeConsumer, hpeer, hfind, hres]
    · refine Or.inr ⟨c, hmem, hid, ?_⟩
      cases hres : eng.resume s.log c <;>
        simp [resumeConsumer, hroom, Room.resumeConsumer, hpeer, hfind, writeBack, hres]

/-- C15, at a concrete input: consumer 4 belongs to peer 2 of room 10; peer 1
asks to resume it and nothing happens. -/
theorem resumeConsumer_own_only_witness :
    resumeConsumer demoEngine stateConsuming 1 10 4
      = { state := stateConsuming, sent := [], thrown := none } :=
  (resumeConsumer_own_only demoEngine stateConsuming 1 10 4 _ peerPublished rfl
    (by decide)).1 (by decide)

/-! ## Creating a transport -/

/-- C16: for a peer present in the room and a transport handle created by the
engine, createSendTransport (resp. createRecvTransport) returns that handle,
with its id, iceParameters, iceCandidates and dtlsParameters, and stores it in
the peer's sendTransport (resp. recvTransport) slot whatever was there; the
peer's other slot, producers and consumers, the keys of the peer map and every
other peer are unchanged.  For a peer id not in the room both operations fail
and leave the room as it was. -/
theorem createTransport_stores_handle (eng : Engine) (log : List EngineCall)
    (room : Room) (peerId : Nat) :
    (∀ peer transport, mapGet room.peers peerId = some peer →
      eng.createWebRtcTransport log room.router = .ok transport →
      ((room.createSendTransport eng log peerId).value = .ok transport
        ∧ mapGet (room.createSendTransport eng log peerId).room.peers peerId
            = some { peer with sendTransport := some transport }
        ∧ (room.createSendTransport eng log peerId).room.peers.map Prod.fst
            = room.peers.map Prod.fst
        ∧ ∀ q, q ≠ peerId →
            mapGet (room.createSendTransport eng log peerId).room.peers q
              = mapGet room.peers q)
      ∧ ((room.createRecvTransport eng log peerId).value = .ok transport
        ∧ mapGet (room.createRecvTransport eng log peerId).room.peers peerId
            = some { peer with recvTransport := some transport }
        ∧ (room.createRecvTransport eng log peerId).room.peers.map Prod.fst
            = room.peers.map Prod.fst
        ∧ ∀ q, q ≠ peerId →
            mapGet (room.createRecvTransport eng log peerId).room.peers q
              = mapGet room.peers q))
    ∧ (mapGet room.peers peerId = none →
      (∃ e, (room.createSendTransport eng log peerId).value = .error e)
      ∧ (room.createSendTransport eng log peerId).room = room
      ∧ (∃ e, (room.createRecvTransport eng log peerId).value = .error e)
      ∧ (room.createRecvTransport eng log peerId).room = room) := by
  constructor
  · intro peer transport hpeer heng
    constructor
    · have hroom : (room.createSendTransport eng log peerId).room.peers
          = mapSet room.peers peerId { peer with sendTransport := some transport } := by
        simp [Room.createSendTransport, heng, hpeer]
      rw [hroom]
      exact ⟨by simp [Room.createSendTransport, heng, hpeer], mapGet_mapSet_self _ _ _,
        mapSet_keys_of_mapGet _ _ _ _ hpeer, fun q hq => mapGet_mapSet_ne _ _ _ _ hq⟩
    · have hroom : (room.createRecvTransport eng log peerId).room.peers
          = mapSet room.peers peerId { peer with recvTransport := some transport } := by
        simp [Room.createRecvTransport, heng, hpeer]
      rw [hroom]
      exact ⟨by simp [Room.createRecvTransport, heng, hpeer], mapGet_mapSet_self _ _ _,
        mapSet_keys_of_mapGet _ _ _ _ hpeer, fun q hq => mapGet_mapSet_ne _ _ _ _ hq⟩
  · intro hnone
    cases heng : eng.createWebRtcTransport log room.router with
    | error e =>
      simp [Room.createSendTransport, Room.createRecvTransport, heng]
    | ok transport =>
      simp [Room.createSendTransport, Room.createRecvTransport, heng, hnone]

/-- C16, at a concrete input: peer 1 of room 10 already holds send transport 1
and creates a send transport again, then a recv transport; the engine hands
out transport 3. -/
theorem createTransport_stores_handle_witness :
    ((roomPublished.createSendTransport demoEngine statePublished.log 1).value
        = .ok { id := 3, iceParameters := 1, iceCandidates := 2, dtlsParameters := 3 }
      ∧ mapGet (roomPublished.createSendTransport demoEngine statePublished.log 1).room.peers 1
          = some { peerPublished with
              sendTransport :=
                some { id := 3, iceParameters := 1, iceCandidates := 2,
                       dtlsParameters := 3 } }
      ∧ (roomPublished.createSendTransport demoEngine statePublished.log 1).room.peers.map
            Prod.fst = roomPublished.peers.map Prod.fst
      ∧ ∀ q, q ≠ 1 →
          mapGet (roomPublished.createSendTransport demoEngine statePublished.log 1).room.peers q
            = mapGet roomPublished.peers q)
    ∧ ((roomPublished.createRecvTransport demoEngine statePublished.log 1).value
        = .ok { id := 3, iceParameters := 1, iceCandidates := 2, dtlsParameters := 3 }
      ∧ mapGet (roomPublished.createRecvTransport demoEngine statePublished.log 1).room.peers 1
          = some { peerPublished with
              recvTransport :=
                some { id := 3, iceParameters := 1, iceCandidates := 2,
                       dtlsParameters := 3 } }
      ∧ (roomPublished.createRecvTransport demoEngine statePublished.log 1).room.peers.map
            Prod.fst = roomPublished.peers.map Prod.fst
      ∧ ∀ q, q ≠ 1 →
          mapGet (roomPublished.createRecvTransport demoEngine statePublished.log 1).room.peers q
            = mapGet roomPublished.peers q) :=
  (createTransport_stores_handle demoEngine statePublished.log roomPublished 1).1
    peerPublished { id := 3, iceParameters := 1, iceCandidates := 2, dtlsParameters := 3 }
    (by decide) (by rfl)

/-! ## Streams kept by the client -/

theorem mem_addTrack (stream : List Nat) (track x : Nat) :
    x ∈ addTrack stream track ↔ x ∈ stream ∨ x = track := by
  unfold addTrack
  split
  · next h =>
    constructor
    · exact Or.inl
    · rintro (hx | hx)
      · exact hx
      · rw [hx]
        exact h
  · simp

theorem tracksOf_consumeStream (peerStreams : List (Nat × List Nat))
    (producerId peerId track q : Nat) :
    tracksOf (consumeStream peerStreams (some producerId) peerId (.track track)) q
      = if q = peerId then addTrack (tracksOf peerStreams peerId) track
        else tracksOf peerStreams q := by
  unfold consumeStream tracksOf
  cases h : mapGet peerStreams peerId <;> simp only [mapGet_mapSet] <;>
    by_cases hq : q = peerId <;> simp [hq]

theorem mem_tracksOf_consumeAll (responses : List (Nat × Nat × Nat))
    (peerStreams : List (Nat × List Nat)) (q x : Nat) :
    x ∈ tracksOf (consumeAll peerStreams responses) q
      ↔ x ∈ tracksOf peerStreams q ∨ ∃ producerId, (q, producerId, x) ∈ responses := by
  induction responses generalizing peerStreams with
  | nil => simp [consumeAll]
  | cons r rest ih =>
    obtain ⟨peerId, producerId, track⟩ := r
    simp only [consumeAll]
    rw [ih, tracksOf_consumeStream]
    by_cases hq : q = peerId
    · subst hq
      simp only [if_true, mem_addTrack, List.mem_cons, Prod.mk.injEq, true_and]
      constructor
      · rintro ((h | h) | ⟨pid, h⟩)
        · exact Or.inl h
        · exact Or.inr ⟨producerId, Or.inl ⟨rfl, h⟩⟩
        · exact Or.inr ⟨pid, Or.inr h⟩
      · rintro (h | ⟨pid, (⟨-, h⟩ | h)⟩)
        · exact Or.inl (Or.inl h)
        · exact Or.inl (Or.inr h)
        · exact Or.inr ⟨pid, h⟩
    · simp only [hq, if_false, List.mem_cons, Prod.mk.injEq, false_and, false_or]

/-- C17: on the client, after any sequence of successful consume responses the
tracks in the stream kept for remote peer P are exactly the tracks consumed for
P (together with those the stream held before; from the empty map, exactly the
consumed ones).  A response adds its track at the end of P's stream, keeping
the earlier tracks, and leaves the stream of every other peer as it was; two
sequences with the same responses in another order give every peer the same
set of tracks; a track that is already in P's stream leaves the stream, and
with it the whole map, unchanged. -/
theorem consumeStream_accumulates (peerStreams : List (Nat × List Nat))
    (responses : List (Nat × Nat × Nat)) :
    (∀ q x, x ∈ tracksOf (consumeAll peerStreams responses) q
        ↔ x ∈ tracksOf peerStreams q ∨ ∃ producerId, (q, producerId, x) ∈ responses)
    ∧ (∀ q x, x ∈ tracksOf (consumeAll [] responses) q
        ↔ ∃ producerId, (q, producerId, x) ∈ responses)
    ∧ (∀ peerId producerId track,
        tracksOf peerStreams peerId
          <+: tracksOf (consumeStream peerStreams (some producerId) peerId (.track track))
                peerId)
    ∧ (∀ peerId producerId track q, q ≠ peerId →
        mapGet (consumeStream peerStreams (some producerId) peerId (.track track)) q
          = mapGet peerStreams q)
    ∧ (∀ reordered, responses.Perm reordered →
        ∀ q x, x ∈ tracksOf (consumeAll peerStreams responses) q
          ↔ x ∈ tracksOf (consumeAll peerStreams reordered) q)
    ∧ (∀ peerId producerId track, track ∈ tracksOf peerStreams peerId →
        consumeStream peerStreams (some producerId) peerId (.track track) = peerStreams) := by
  refine ⟨fun q x => mem_tracksOf_consumeAll responses peerStreams q x, ?_, ?_, ?_, ?_, ?_⟩
  · intro q x
    rw [mem_tracksOf_consumeAll]
    simp [tracksOf, mapGet]
  · intro peerId producerId track
    rw [tracksOf_consumeStream]
    simp only [if_true, addTrack]
    split
    · exact List.prefix_refl _
    · exact List.prefix_append _ _
  · intro peerId producerId track q hq
    unfold consumeStream
    cases h : mapGet peerStreams peerId <;> simp only [] <;>
      exact mapGet_mapSet_ne _ _ _ _ hq
  · intro reordered hperm q x
    rw [mem_tracksOf_consumeAll, mem_tracksOf_consumeAll]
    constructor
    · rintro (h | ⟨pid, h⟩)
      · exact Or.inl h
      · exact Or.inr ⟨pid, hperm.mem_iff.1 h⟩
    · rintro (h | ⟨pid, h⟩)
      · exact Or.inl h
      · exact Or.inr ⟨pid, hperm.mem_iff.2 h⟩
  · intro peerId producerId track hmem
    unfold consumeStream
    cases h : mapGet peerStreams peerId with
    | none => simp [tracksOf, h] at hmem
    | some peerStream =>
      simp only [tracksOf, h, Option.getD_some] at hmem
      simp only [addTrack, hmem, if_true]
      exact mapSet_of_mapGet _ _ _ h

/-! ## The participant list of the client -/

theorem newPeerUpdate_ids_nodup (prev : List Participant) (id : Nat) (name : String)
    (isHost : Bool) (now : Nat) (h : (prev.map (·.id)).Nodup) :
    ((newPeerUpdate prev id name isHost now).map (·.id)).Nodup := by
  unfold newPeerUpdate
  cases hfind : prev.find? (fun p => p.id == id) with
  | some _ => exact h
  | none =>
    simp only [List.map_append, List.map_cons, List.map_nil]
    rw [List.nodup_append]
    refine ⟨h, List.nodup_singleton _, ?_⟩
    intro x hx hx'
    rw [List.mem_singleton] at hx'
    subst hx'
    rw [List.mem_map] at hx
    obtain ⟨p, hp, hpid⟩ := hx
    have := List.find?_eq_none.1 hfind p hp
    simp [hpid] at this

theorem streamUpdate_ids_nodup (prev : List Participant) (peerId stream now : Nat)
    (h : (prev.map (·.id)).Nodup) :
    ((streamUpdate prev peerId stream now).map (·.id)).Nodup := by
  unfold streamUpdate
  split
  · have hids : (prev.map fun p =>
          if p.id == peerId then { p with stream := some stream, streamKey := now }
          else p).map (·.id) = prev.map (·.id) := by
      rw [List.map_map]
      apply List.map_congr_left
      intro p _
      simp only [Function.comp]
      split <;> rfl
    rw [hids]
    exact h
  · next hany =>
    simp only [List.map_append, List.map_cons, List.map_nil]
    rw [List.nodup_append]
    refine ⟨h, List.nodup_singleton _, ?_⟩
    intro x hx hx'
    rw [List.mem_singleton] at hx'
    subst hx'
    rw [List.mem_map] at hx
    obtain ⟨p, hp, hpid⟩ := hx
    apply hany
    rw [List.any_eq_true]
    exact ⟨p, hp, by simp [hpid]⟩

theorem streamUpdate_others (prev : List Participant) (peerId stream now : Nat) :
    (streamUpdate prev peerId stream now).filter (fun p => p.id != peerId)
      = prev.filter (fun p => p.id != peerId) := by
  have hmap : ∀ l : List Participant,
      (l.map fun p =>
          if p.id == peerId then { p with stream := some stream, streamKey := now }
          else p).filter (fun p => p.id != peerId)
        = l.filter (fun p => p.id != peerId) := by
    intro l
    induction l with
    | nil => rfl
    | cons p rest ih =>
      by_cases hp : p.id = peerId
      · simp only [List.map_cons, List.filter_cons, hp, beq_self_eq_true, if_true, bne_self_eq_false]
        simpa using ih
      · have hb : (p.id == peerId) = false := by simpa using hp
        simp only [List.map_cons, List.filter_cons, hb, bne, Bool.not_false, if_true]
        simp only [Bool.false_eq_true, if_false, hb, Bool.not_false, if_true]
        exact congrArg (List.cons p) ih
  unfold streamUpdate
  split
  · exact hmap prev
  · simp [List.filter_append, List.filter_cons]

theorem applyEvent_ids_nodup (participants : List Participant) (event : ParticipantEvent)
    (h : (participants.map (·.id)).Nodup) :
    ((applyEvent participants event).map (·.id)).Nodup := by
  cases event with
  | newPeer id name isHost now => exact newPeerUpdate_ids_nodup _ _ _ _ _ h
  | stream peerId stream now => exact streamUpdate_ids_nodup _ _ _ _ h

theorem foldl_applyEvent_ids_nodup (events : List ParticipantEvent)
    (participants : List Participant) (h : (participants.map (·.id)).Nodup) :
    ((events.foldl applyEvent participants).map (·.id)).Nodup := by
  induction events generalizing participants with
  | nil => exact h
  | cons e rest ih => exact ih _ (applyEvent_ids_nodup _ e h)

/-- C18: the client's participants list never holds two entries with the same
peer id: the initial list built from a roster with distinct ids has distinct
ids (and not the client's own), and so has the list after any sequence of
newPeer updates and stream updates; each single update keeps ids distinct, and
a stream update leaves every entry with another id as it was, in place. -/
theorem participants_ids_distinct (peers : List PeerInfo) (socketId now : Nat)
    (events : List ParticipantEvent) (hroster : (peers.map (·.id)).Nodup) :
    ((initialParticipants peers socketId now).map (·.id)).Nodup
    ∧ (∀ p ∈ initialParticipants peers socketId now, p.id ≠ socketId)
    ∧ ((events.foldl applyEvent (initialParticipants peers socketId now)).map (·.id)).Nodup
    ∧ (∀ prev id name isHost t, (prev.map (·.id)).Nodup →
        ((newPeerUpdate prev id name isHost t).map (·.id)).Nodup)
    ∧ (∀ prev peerId stream t, (prev.map (·.id)).Nodup →
        ((streamUpdate prev peerId stream t).map (·.id)).Nodup)
    ∧ (∀ prev peerId stream t,
        (streamUpdate prev peerId stream t).filter (fun p => p.id != peerId)
          = prev.filter (fun p => p.id != peerId)) := by
  have hinit : ((initialParticipants peers socketId now).map (·.id)).Nodup := by
    have hids : (initialParticipants peers socketId now).map (·.id)
        = (peers.filter fun p => p.id != socketId).map (·.id) := by
      simp [initialParticipants, List.map_map, Function.comp]
    rw [hids]
    exact List.Nodup.sublist (List.Sublist.map _ (List.filter_sublist _)) hroster
  refine ⟨hinit, ?_, foldl_applyEvent_ids_nodup events _ hinit,
    fun prev id name isHost t h => newPeerUpdate_ids_nodup prev id name isHost t h,
    fun prev peerId stream t h => streamUpdate_ids_nodup prev peerId stream t h,
    fun prev peerId stream t => streamUpdate_others prev peerId stream t⟩
  intro p hp
  simp only [initialParticipants, List.mem_map, List.mem_filter] at hp
  obtain ⟨info, ⟨-, hne⟩, rfl⟩ := hp
  simpa using hne

/-- C18, at a concrete input: client 2 gets the roster of peers 1 and 2, then
receives a stream for peer 1, a stream for the unknown peer 3 and a newPeer
event for peer 3. -/
theorem participants_ids_distinct_witness :
    (([ParticipantEvent.stream 1 50 1, .stream 3 51 2, .newPeer 3 "C" false 3].foldl
        applyEvent
        (initialParticipants
          [{ id := 1, name := "A", isHost := true, videoProducers := [2],
             audioProducers := [] },
           { id := 2, name := "B", isHost := false, videoProducers := [],
             audioProducers := [] }] 2 0)).map (·.id)).Nodup :=
  (participants_ids_distinct
    [{ id := 1, name := "A", isHost := true, videoProducers := [2], audioProducers := [] },
     { id := 2, name := "B", isHost := false, videoProducers := [], audioProducers := [] }]
    2 0 [.stream 1 50 1, .stream 3 51 2, .newPeer 3 "C" false 3] (by decide)).2.2.1

end VideoConference
